import Mathlib

/-!
# Verification of the paper-tearing simulation core

A shallow embedding of the paper-tearing simulation core:
the mesh topology manager (PaperMesh), the tear propagation engine
(TearSimulation) and the vector utilities they use.

Modelling conventions:
* JavaScript numbers are modelled as rationals (ℚ); the only inexact numeric
  primitive used by the embedded code, Math.sqrt, is passed in as an explicit
  parameter `sq : ℚ → ℚ`, so every theorem quantified over `sq` holds for any
  square-root implementation.  Concrete evaluations instantiate `sq` with
  the kernel-reducible `qSqrt` defined below, which agrees with the real
  square root on the perfect-square arguments arising in those
  evaluations.
* A JS `Map` with numeric keys is modelled as an insertion-ordered list of
  records; `Map.get` is `List.find?` on the id, `Map.set` replaces an existing
  entry in place or appends a new one.  The string edge key `"min_max"` is
  injective on vertex-id pairs, so it is modelled by the canonical pair itself
  (which `addEdge` also stores in the edge's `vertices` field).
* The non-null assertions (`!`) of the source are modelled by `Option.getD`
  with a default record; all uses in the developments below are on ids that
  are present.
* Division by zero is total in ℚ (`x / 0 = 0`) where JS would produce
  NaN/Infinity; the claims below only concern configurations and states where
  the involved divisors are nonzero.
-/

namespace Paper

/-- 2D vector (types.ts `Vec2`). -/
structure Vec2 where
  x : ℚ
  y : ℚ
deriving DecidableEq, Inhabited

/-- 3D vector (types.ts `Vec3`). -/
structure Vec3 where
  x : ℚ
  y : ℚ
  z : ℚ
deriving DecidableEq, Inhabited

namespace vec2

/-- types.ts `vec2.add`. -/
def add (a b : Vec2) : Vec2 := ⟨a.x + b.x, a.y + b.y⟩

/-- types.ts `vec2.sub`. -/
def sub (a b : Vec2) : Vec2 := ⟨a.x - b.x, a.y - b.y⟩

/-- types.ts `vec2.scale`. -/
def scale (v : Vec2) (s : ℚ) : Vec2 := ⟨v.x * s, v.y * s⟩

/-- types.ts `vec2.dot`. -/
def dot (a b : Vec2) : ℚ := a.x * b.x + a.y * b.y

/-- types.ts `vec2.length`; `Math.sqrt` is the parameter `sq`. -/
def length (sq : ℚ → ℚ) (v : Vec2) : ℚ := sq (v.x * v.x + v.y * v.y)

/-- types.ts `vec2.normalize`: zero vector below the `0.0001` length guard. -/
def normalize (sq : ℚ → ℚ) (v : Vec2) : Vec2 :=
  let len := length sq v
  if 1 / 10000 < len then ⟨v.x / len, v.y / len⟩ else ⟨0, 0⟩

/-- types.ts `vec2.bisector`. -/
def bisector (sq : ℚ → ℚ) (a b : Vec2) : Vec2 :=
  normalize sq (add (normalize sq a) (normalize sq b))

/-- types.ts `vec2.perpendicular`. -/
def perpendicular (v : Vec2) : Vec2 := ⟨-v.y, v.x⟩

end vec2

namespace vec3

/-- types.ts `vec3.add`. -/
def add (a b : Vec3) : Vec3 := ⟨a.x + b.x, a.y + b.y, a.z + b.z⟩

/-- types.ts `vec3.sub`. -/
def sub (a b : Vec3) : Vec3 := ⟨a.x - b.x, a.y - b.y, a.z - b.z⟩

/-- types.ts `vec3.scale`. -/
def scale (v : Vec3) (s : ℚ) : Vec3 := ⟨v.x * s, v.y * s, v.z * s⟩

/-- types.ts `vec3.dot`. -/
def dot (a b : Vec3) : ℚ := a.x * b.x + a.y * b.y + a.z * b.z

/-- types.ts `vec3.length`; `Math.sqrt` is the parameter `sq`. -/
def length (sq : ℚ → ℚ) (v : Vec3) : ℚ := sq (v.x * v.x + v.y * v.y + v.z * v.z)

/-- types.ts `vec3.normalize`. -/
def normalize (sq : ℚ → ℚ) (v : Vec3) : Vec3 :=
  let len := length sq v
  if 1 / 10000 < len then ⟨v.x / len, v.y / len, v.z / len⟩ else ⟨0, 0, 0⟩

end vec3

/-- types.ts `PaperVertex`. -/
structure PaperVertex where
  id : ℕ
  position : Vec3
  uv : Vec2
  velocity : Vec3
  mass : ℚ
  pinned : Bool
  isBoundary : Bool
  isTearTip : Bool
deriving DecidableEq, Inhabited

/-- types.ts `PaperTriangle`; the array `vertices` is the triple
`[v0, v1, v2]`. -/
structure PaperTriangle where
  id : ℕ
  v0 : ℕ
  v1 : ℕ
  v2 : ℕ
  restArea : ℚ
  neighbors : List ℕ
deriving DecidableEq, Inhabited

/-- types.ts `PaperEdge`; `ev0 ≤ ev1` is the canonical pair `vertices`,
which is also the map key. -/
structure PaperEdge where
  id : ℕ
  ev0 : ℕ
  ev1 : ℕ
  triangles : List ℕ
  isBoundary : Bool
  isTorn : Bool
  tearProgress : ℚ
deriving DecidableEq, Inhabited

/-- types.ts `PaperConfig`. -/
structure PaperConfig where
  width : ℚ
  height : ℚ
  subdivisions : ℕ
  stiffness : ℚ
  bendingStiffness : ℚ
  damping : ℚ
  density : ℚ
  fractureThreshold : ℚ
  tearResistance : ℚ
  fiberDirection : Vec2
  fiberAnisotropy : ℚ
  grabRadius : ℚ
  grabStiffness : ℚ
deriving DecidableEq, Inhabited

/-- The state of a `PaperMesh` object (paper-mesh.ts): the three maps and
the three id counters. -/
structure PaperMesh where
  vertices : List PaperVertex
  triangles : List PaperTriangle
  edges : List PaperEdge
  nextVertexId : ℕ
  nextTriangleId : ℕ
  nextEdgeId : ℕ
deriving DecidableEq, Inhabited

/-- Junk record for the source's non-null assertions on absent ids. -/
def defaultVertex : PaperVertex := default

/-- paper-mesh.ts `edgeKey`: the canonical unordered pair. -/
def edgeKey (a b : ℕ) : ℕ × ℕ := (min a b, max a b)

/-- `this.vertices.get(i)` -/
def findVertex (m : PaperMesh) (i : ℕ) : Option PaperVertex :=
  m.vertices.find? (fun v => v.id == i)

/-- `this.vertices.set(v.id, v)` (replace in place, else append). -/
def setVertex (l : List PaperVertex) (v : PaperVertex) : List PaperVertex :=
  if l.any (fun w => w.id == v.id) then
    l.map (fun w => if w.id == v.id then v else w)
  else l ++ [v]

/-- In-place mutation of the vertex record with id `i` (a no-op when the id
is absent, which never happens in the developments below). -/
def updateVertex (m : PaperMesh) (i : ℕ) (f : PaperVertex → PaperVertex) :
    PaperMesh :=
  { m with vertices := m.vertices.map (fun w => if w.id == i then f w else w) }

/-- paper-mesh.ts `getEdge`. -/
def getEdge (m : PaperMesh) (a b : ℕ) : Option PaperEdge :=
  m.edges.find? (fun e => (e.ev0, e.ev1) == edgeKey a b)

/-- paper-mesh.ts `getVertexEdges`. -/
def getVertexEdges (m : PaperMesh) (i : ℕ) : List PaperEdge :=
  m.edges.filter (fun e => e.ev0 == i || e.ev1 == i)

/-- paper-mesh.ts `getVertexTriangles`. -/
def getVertexTriangles (m : PaperMesh) (i : ℕ) : List PaperTriangle :=
  m.triangles.filter (fun t => t.v0 == i || t.v1 == i || t.v2 == i)

/-- paper-mesh.ts `addTriangle`: appends a triangle with the rest area
computed from the (current) UV coordinates of its three vertices. -/
def addTriangle (m : PaperMesh) (a b c : ℕ) : PaperMesh × ℕ :=
  let id := m.nextTriangleId
  let p0 := ((findVertex m a).getD defaultVertex).uv
  let p1 := ((findVertex m b).getD defaultVertex).uv
  let p2 := ((findVertex m c).getD defaultVertex).uv
  let restArea : ℚ :=
    (1 / 2) * |(p1.x - p0.x) * (p2.y - p0.y) - (p2.x - p0.x) * (p1.y - p0.y)|
  ({ m with
      triangles := m.triangles ++
        [{ id := id, v0 := a, v1 := b, v2 := c, restArea := restArea,
           neighbors := [] }],
      nextTriangleId := id + 1 }, id)

/-- The edge-list effect of paper-mesh.ts `addEdge`: push the triangle id
onto an existing edge (if not already present), else append a fresh edge. -/
def addEdgeList (es : List PaperEdge) (nid : ℕ) (a b tid : ℕ) :
    List PaperEdge :=
  let k := edgeKey a b
  if es.any (fun e => (e.ev0, e.ev1) == k) then
    es.map (fun e =>
      if (e.ev0, e.ev1) == k then
        (if tid ∈ e.triangles then e
         else { e with triangles := e.triangles ++ [tid] })
      else e)
  else
    es ++ [{ id := nid, ev0 := k.1, ev1 := k.2, triangles := [tid],
             isBoundary := true, isTorn := false, tearProgress := 0 }]

/-- paper-mesh.ts `addEdge`, acting on the edge list and the edge id
counter. -/
def addEdgeStep (es : List PaperEdge) (nid : ℕ) (a b tid : ℕ) :
    List PaperEdge × ℕ :=
  (addEdgeList es nid a b tid,
   if es.any (fun e => (e.ev0, e.ev1) == edgeKey a b) then nid else nid + 1)

/-- The three `addEdge` calls made for one triangle inside `rebuildEdges`. -/
def addTriEdges (es : List PaperEdge) (nid : ℕ) (t : PaperTriangle) :
    List PaperEdge × ℕ :=
  let r1 := addEdgeStep es nid t.v0 t.v1 t.id
  let r2 := addEdgeStep r1.1 r1.2 t.v1 t.v2 t.id
  addEdgeStep r2.1 r2.2 t.v2 t.v0 t.id

/-- `v.isBoundary = true` for the vertex record with id `i`. -/
def markVertexBoundary (vs : List PaperVertex) (i : ℕ) : List PaperVertex :=
  vs.map (fun w => if w.id == i then { w with isBoundary := true } else w)

/-- `if (!tri.neighbors.includes(b)) tri.neighbors.push(b)` on triangle `a`. -/
def addNeighborOnce (ts : List PaperTriangle) (a b : ℕ) : List PaperTriangle :=
  ts.map (fun t =>
    if t.id == a then
      (if b ∈ t.neighbors then t else { t with neighbors := t.neighbors ++ [b] })
    else t)

/-- The edge-building loop of `rebuildEdges` over a triangle list. -/
def buildEdgeFold (ts : List PaperTriangle) (acc : List PaperEdge × ℕ) :
    List PaperEdge × ℕ :=
  ts.foldl (fun acc t => addTriEdges acc.1 acc.2 t) acc

/-- The boundary-flag pass of `rebuildEdges` on the edge list. -/
def flagEdges (es : List PaperEdge) : List PaperEdge :=
  es.map (fun e => { e with isBoundary := e.triangles.length == 1 })

/-- The boundary-vertex marking pass of `rebuildEdges`. -/
def markBoundaryVertices (vs : List PaperVertex) (es : List PaperEdge) :
    List PaperVertex :=
  es.foldl (fun vs e =>
    if e.isBoundary then markVertexBoundary (markVertexBoundary vs e.ev0) e.ev1
    else vs) vs

/-- The triangle-neighbor pass of `rebuildEdges`. -/
def rebuildNeighbors (ts : List PaperTriangle) (es : List PaperEdge) :
    List PaperTriangle :=
  es.foldl (fun ts e =>
    match e.triangles with
    | [t0, t1] => addNeighborOnce (addNeighborOnce ts t0 t1) t1 t0
    | _ => ts) ts

/-- paper-mesh.ts `rebuildEdges`: clear the edge map, reset neighbors,
re-derive edges from triangles, recompute edge boundary flags, mark boundary
vertices, and rebuild triangle neighbor lists. -/
def rebuildEdges (m : PaperMesh) : PaperMesh :=
  let tris0 := m.triangles.map (fun t => { t with neighbors := ([] : List ℕ) })
  let built := buildEdgeFold tris0 ([], m.nextEdgeId)
  let flagged := flagEdges built.1
  { m with vertices := markBoundaryVertices m.vertices flagged,
           triangles := rebuildNeighbors tris0 flagged,
           edges := flagged,
           nextEdgeId := built.2 }

/-- `tri.vertices[tri.vertices.indexOf(old)] = b` (first occurrence). -/
def replaceFirstVertexRef (t : PaperTriangle) (a b : ℕ) : PaperTriangle :=
  if t.v0 == a then { t with v0 := b }
  else if t.v1 == a then { t with v1 := b }
  else if t.v2 == a then { t with v2 := b }
  else t

/-- paper-mesh.ts `splitVertex`. -/
def splitVertex (m : PaperMesh) (i : ℕ) (toMove : List ℕ) : PaperMesh × ℕ :=
  let original := (findVertex m i).getD defaultVertex
  let newId := m.nextVertexId
  let nv := { original with id := newId }
  let vs := setVertex m.vertices nv
  let ts := toMove.foldl (fun ts tid =>
    ts.map (fun t => if t.id == tid then replaceFirstVertexRef t i newId else t))
    m.triangles
  (rebuildEdges { m with vertices := vs, triangles := ts,
                         nextVertexId := newId + 1 }, newId)

/-- `v.isBoundary = true` as a mesh operation. -/
def markMeshVB (m : PaperMesh) (j : ℕ) : PaperMesh :=
  { m with vertices := markVertexBoundary m.vertices j }

/-- `edge.isTorn = true; edge.isBoundary = true` on the stored edge. -/
def markTornEdge (m : PaperMesh) (a b : ℕ) : PaperMesh :=
  { m with edges := m.edges.map (fun d =>
    if (d.ev0, d.ev1) == edgeKey a b then
      { d with isTorn := true, isBoundary := true }
    else d) }

/-- Internal-edge branch of `tearEdge`: split both endpoints away from the
second adjacent triangle `t1` and mark the four vertices as boundary. -/
def tearEdgeSplitBranch (m1 : PaperMesh) (a b t1 : ℕ) : PaperMesh :=
  let s0 := splitVertex m1 a [t1]
  let s1 := splitVertex s0.1 b [t1]
  markMeshVB (markMeshVB (markMeshVB (markMeshVB s1.1 a) b) s0.2) s1.2

/-- paper-mesh.ts `tearEdge`. -/
def tearEdge (m : PaperMesh) (a b : ℕ) : PaperMesh :=
  match getEdge m a b with
  | none => m
  | some e =>
    if e.isTorn then m
    else
      let m1 := markTornEdge m a b
      let m2 :=
        if e.triangles.length == 2 then
          tearEdgeSplitBranch m1 a b (e.triangles.getD 1 0)
        else m1
      rebuildEdges m2

/-- `tri.vertices.indexOf(x)` (first index, `none` for `-1`). -/
def triIndexOf (t : PaperTriangle) (x : ℕ) : Option ℕ :=
  if t.v0 == x then some 0
  else if t.v1 == x then some 1
  else if t.v2 == x then some 2
  else none

/-- `tri.vertices[n]`; out-of-range reads (impossible on the well-formed
triangles below) return 0. -/
def triGet (t : PaperTriangle) (n : ℕ) : ℕ :=
  match n with
  | 0 => t.v0
  | 1 => t.v1
  | 2 => t.v2
  | _ => 0

/-- `tri.vertices[n] = b`. -/
def triSet (t : PaperTriangle) (n : ℕ) (b : ℕ) : PaperTriangle :=
  match n with
  | 0 => { t with v0 := b }
  | 1 => { t with v1 := b }
  | 2 => { t with v2 := b }
  | _ => t

/-- The interpolated vertex record created by `insertVertexOnEdge` (takes its
id from `m.nextVertexId`). -/
def insertMidVertex (m : PaperMesh) (a b : ℕ) (t : ℚ) : PaperVertex :=
  let vert0 := (findVertex m a).getD defaultVertex
  let vert1 := (findVertex m b).getD defaultVertex
  { id := m.nextVertexId,
    position := ⟨vert0.position.x + t * (vert1.position.x - vert0.position.x),
                 vert0.position.y + t * (vert1.position.y - vert0.position.y),
                 vert0.position.z + t * (vert1.position.z - vert0.position.z)⟩,
    uv := ⟨vert0.uv.x + t * (vert1.uv.x - vert0.uv.x),
           vert0.uv.y + t * (vert1.uv.y - vert0.uv.y)⟩,
    velocity := ⟨0, 0, 0⟩,
    mass := (vert0.mass + vert1.mass) / 2,
    pinned := false,
    isBoundary := true,
    isTearTip := true }

/-- One iteration of the triangle-splitting loop of `insertVertexOnEdge`. -/
def insertLoopStep (a b newId : ℕ) (mc : PaperMesh) (tid : ℕ) : PaperMesh :=
  match mc.triangles.find? (fun u => u.id == tid) with
  | none => mc
  | some tri =>
    match triIndexOf tri a, triIndexOf tri b with
    | some i0, some i1 =>
      let otherIdx := 3 - i0 - i1
      let otherV := triGet tri otherIdx
      let tri2 := triSet tri i1 newId
      let mc2 := { mc with triangles := mc.triangles.map (fun u =>
        if u.id == tid then tri2 else u) }
      (addTriangle mc2 newId b otherV).1
    | _, _ => mc

/-- paper-mesh.ts `insertVertexOnEdge`. -/
def insertVertexOnEdge (m : PaperMesh) (a b : ℕ) (t : ℚ) : PaperMesh × ℕ :=
  let newId := m.nextVertexId
  let nv := insertMidVertex m a b t
  let m1 := { m with vertices := setVertex m.vertices nv,
                     nextVertexId := newId + 1 }
  let m2 :=
    match getEdge m1 a b with
    | none => m1
    | some e => e.triangles.foldl (insertLoopStep a b newId) m1
  (rebuildEdges m2, newId)

/-- `cols` of `buildInitialMesh`. -/
def gridCols (cfg : PaperConfig) : ℕ := cfg.subdivisions

/-- `rows = Math.ceil(subdivisions * (height / width))`; nonnegative for the
valid configurations the claims quantify over. -/
def gridRows (cfg : PaperConfig) : ℕ :=
  (Int.ceil ((cfg.subdivisions : ℚ) * (cfg.height / cfg.width))).toNat

/-- `vertexGrid[j][i]`: ids are assigned row-major by the construction loop. -/
def gridIndex (cols j i : ℕ) : ℕ := j * (cols + 1) + i

/-- The vertex record created for grid position `(j, i)`. -/
def initialVertex (cfg : PaperConfig) (cols rows j i : ℕ) : PaperVertex :=
  let u : ℚ := (i : ℚ) / (cols : ℚ)
  let v : ℚ := (j : ℚ) / (rows : ℚ)
  { id := gridIndex cols j i,
    position := ⟨(u - 1 / 2) * cfg.width, (v - 1 / 2) * cfg.height, 0⟩,
    uv := ⟨u, v⟩,
    velocity := ⟨0, 0, 0⟩,
    mass := cfg.density * (cfg.width / (cols : ℚ)) * (cfg.height / (rows : ℚ)) / 4,
    pinned := decide ((19 / 20 : ℚ) < v),
    isBoundary := (i == 0) || (i == cols) || (j == 0) || (j == rows),
    isTearTip := false }

/-- The vertex map after the construction loops (row-major insertion). -/
def initialVertices (cfg : PaperConfig) (cols rows : ℕ) : List PaperVertex :=
  (List.range (rows + 1)).flatMap (fun j =>
    (List.range (cols + 1)).map (fun i => initialVertex cfg cols rows j i))

/-- The grid cells `(j, i)` in loop order. -/
def cellList (cols rows : ℕ) : List (ℕ × ℕ) :=
  (List.range rows).flatMap (fun j =>
    (List.range cols).map (fun i => (j, i)))

/-- The two `addTriangle` calls for one grid cell. -/
def addCellTriangles (cols : ℕ) (m : PaperMesh) (ji : ℕ × ℕ) : PaperMesh :=
  let a00 := gridIndex cols ji.1 ji.2
  let a10 := gridIndex cols ji.1 (ji.2 + 1)
  let a01 := gridIndex cols (ji.1 + 1) ji.2
  let a11 := gridIndex cols (ji.1 + 1) (ji.2 + 1)
  let m1 := (addTriangle m a00 a10 a01).1
  (addTriangle m1 a10 a11 a01).1

/-- paper-mesh.ts `buildInitialMesh` (run by the constructor). -/
def buildInitialMesh (cfg : PaperConfig) : PaperMesh :=
  let cols := gridCols cfg
  let rows := gridRows cfg
  let m0 : PaperMesh := {
    vertices := initialVertices cfg cols rows,
    triangles := [], edges := [],
    nextVertexId := (rows + 1) * (cols + 1),
    nextTriangleId := 0, nextEdgeId := 0 }
  rebuildEdges ((cellList cols rows).foldl (addCellTriangles cols) m0)

/-- types.ts `Force`. -/
structure Force where
  vertex : ℕ
  direction : Vec2
  magnitude : ℚ
deriving DecidableEq, Inhabited

/-- types.ts `TearTip`. -/
structure TearTip where
  vertexId : ℕ
  uvPosition : Vec2
  tearDirection : Vec2
  energy : ℚ
deriving DecidableEq, Inhabited

/-- types.ts `ForceCluster`. -/
structure ForceCluster where
  direction : Vec2
  magnitude : ℚ
  forces : List Force
deriving DecidableEq, Inhabited

/-- The state of a `TearSimulation` object (tear-simulation.ts): the mesh it
owns, the tear tips, the grab state and the per-vertex force accumulator. -/
structure SimState where
  mesh : PaperMesh
  tearTips : List TearTip
  grabVertex : Option ℕ
  grabForce : Vec3
  vertexForces : List (ℕ × Vec3)
deriving DecidableEq, Inhabited

/-- tear-simulation.ts `getForce`. -/
def getForce (st : SimState) (i : ℕ) : Vec3 :=
  match st.vertexForces.find? (fun p => p.1 == i) with
  | some p => p.2
  | none => ⟨0, 0, 0⟩

/-- tear-simulation.ts `addForce`. -/
def addForce (st : SimState) (i : ℕ) (f : Vec3) : SimState :=
  let nf := vec3.add (getForce st i) f
  if st.vertexForces.any (fun p => p.1 == i) then
    { st with vertexForces := st.vertexForces.map (fun p =>
        if p.1 == i then (i, nf) else p) }
  else { st with vertexForces := st.vertexForces ++ [(i, nf)] }

/-- tear-simulation.ts `computeInternalForces`. -/
def computeInternalForces (sq : ℚ → ℚ) (cfg : PaperConfig) (st : SimState) :
    SimState :=
  st.mesh.triangles.foldl (fun s tri =>
    let v0 := (findVertex s.mesh tri.v0).getD defaultVertex
    let v1 := (findVertex s.mesh tri.v1).getD defaultVertex
    let v2 := (findVertex s.mesh tri.v2).getD defaultVertex
    let e1_3d := vec3.sub v1.position v0.position
    let e2_3d := vec3.sub v2.position v0.position
    let e1_uv := vec2.sub v1.uv v0.uv
    let e2_uv := vec2.sub v2.uv v0.uv
    let detRest := e1_uv.x * e2_uv.y - e1_uv.y * e2_uv.x
    if |detRest| < 1 / 10000 then s
    else
      let len1 := vec3.length sq e1_3d
      let len2 := vec3.length sq e2_3d
      let restLen1 := vec2.length sq e1_uv * cfg.width
      let restLen2 := vec2.length sq e2_uv * cfg.height
      let strain1 := (len1 - restLen1) / restLen1
      let strain2 := (len2 - restLen2) / restLen2
      let forceMag1 := strain1 * cfg.stiffness * tri.restArea
      let forceMag2 := strain2 * cfg.stiffness * tri.restArea
      let dir1 := vec3.normalize sq e1_3d
      let dir2 := vec3.normalize sq e2_3d
      let f1 := vec3.scale dir1 (-forceMag1)
      let f2 := vec3.scale dir2 (-forceMag2)
      let s1 := addForce s v0.id (vec3.add f1 f2)
      let s2 := addForce s1 v1.id (vec3.scale f1 (-1))
      addForce s2 v2.id (vec3.scale f2 (-1))) st

/-- tear-simulation.ts `applyExternalForces`. -/
def applyExternalForces (cfg : PaperConfig) (st : SimState) : SimState :=
  let gravity : Vec3 := ⟨0, -(1 / 2), 0⟩
  let s1 := st.mesh.vertices.foldl (fun s v =>
    if v.pinned then s
    else
      let s := addForce s v.id (vec3.scale gravity v.mass)
      addForce s v.id (vec3.scale v.velocity (-cfg.damping))) st
  match s1.grabVertex with
  | some g => addForce s1 g s1.grabForce
  | none => s1

/-- The force-gathering loop of `processTearTip` (step 1). -/
def gatherTipForces (sq : ℚ → ℚ) (st : SimState) (tip : TearTip)
    (vertex : PaperVertex) : List Force :=
  (getVertexTriangles st.mesh tip.vertexId).foldl (fun fs tri =>
    let others := ([tri.v0, tri.v1, tri.v2]).filter (fun x => x != tip.vertexId)
    others.foldl (fun fs otherId =>
      let otherVertex := (findVertex st.mesh otherId).getD defaultVertex
      let otherForce := getForce st otherId
      let uvDir := vec2.sub otherVertex.uv vertex.uv
      let uvDist := vec2.length sq uvDir
      if uvDist < 1 / 1000 then fs
      else fs ++ [{ vertex := otherId, direction := vec2.normalize sq uvDir,
                    magnitude := vec3.length sq otherForce * uvDist }]) fs) []

/-- The cluster-centroid helper inside `clusterForces`. -/
def mkCluster (sq : ℚ → ℚ) (fs : List Force) : ForceCluster :=
  let sums := fs.foldl (fun (acc : Vec2 × ℚ) f =>
    (vec2.add acc.1 (vec2.scale f.direction f.magnitude), acc.2 + f.magnitude))
    (⟨0, 0⟩, 0)
  { direction := vec2.normalize sq sums.1, magnitude := sums.2, forces := fs }

/-- tear-simulation.ts `clusterForces`. -/
def clusterForces (sq : ℚ → ℚ) (forces : List Force) : List ForceCluster :=
  if forces.length < 2 then []
  else
    let n := forces.length
    let pairs := (List.range n).flatMap (fun i =>
      (List.range n).filterMap (fun j => if i < j then some (i, j) else none))
    let best := pairs.foldl (fun (acc : ℚ × ℕ × ℕ) ij =>
      let di := (forces.getD ij.1 default).direction
      let dj := (forces.getD ij.2 default).direction
      let opp := -(vec2.dot di dj)
      if acc.1 < opp then (opp, ij.1, ij.2) else acc) (-1, 0, 1)
    let seedA := (forces.getD best.2.1 default).direction
    let seedB := (forces.getD best.2.2 default).direction
    let part := forces.foldl (fun (ab : List Force × List Force) f =>
      let dotA := vec2.dot f.direction seedA
      let dotB := vec2.dot f.direction seedB
      if dotB < dotA then (ab.1 ++ [f], ab.2) else (ab.1, ab.2 ++ [f]))
      ([], [])
    [mkCluster sq part.1, mkCluster sq part.2]

/-- tear-simulation.ts `computeTearDirection`. -/
def computeTearDirection (sq : ℚ → ℚ) (cfg : PaperConfig)
    (cA cB : ForceCluster) (tip : TearTip) : Vec2 :=
  let bis := vec2.bisector sq cA.direction cB.direction
  let td0 := vec2.perpendicular bis
  let td1 := if vec2.dot td0 tip.tearDirection < 0 then vec2.scale td0 (-1)
             else td0
  if 0 < cfg.fiberAnisotropy then
    let fiber := cfg.fiberDirection
    let fiberDot := |vec2.dot td1 fiber|
    let fiberBias := vec2.scale fiber (fiberDot * cfg.fiberAnisotropy)
    vec2.normalize sq
      (vec2.add (vec2.scale td1 (1 - cfg.fiberAnisotropy)) fiberBias)
  else td1

/-- tear-simulation.ts `computeEnergyRelease`. -/
def computeEnergyRelease (cA cB : ForceCluster) : ℚ :=
  (-(vec2.dot cA.direction cB.direction)) * ((cA.magnitude + cB.magnitude) / 2)

/-- The best-aligned-edge search inside `propagateTear`; `none` models the
`bestAlignment = -Infinity, bestEdge = null` initial state. -/
def bestTearCandidate (sq : ℚ → ℚ) (m : PaperMesh) (tipId : ℕ)
    (vertex : PaperVertex) (dir : Vec2) : Option ((ℕ × ℕ) × ℚ) :=
  (getVertexEdges m tipId).foldl (fun acc e =>
    if e.isTorn then acc
    else
      let otherId := if e.ev0 == tipId then e.ev1 else e.ev0
      let other := (findVertex m otherId).getD defaultVertex
      let edgeDir := vec2.normalize sq (vec2.sub other.uv vertex.uv)
      let alignment := vec2.dot edgeDir dir
      match acc with
      | none => some ((tipId, otherId), alignment)
      | some pa =>
        if pa.2 < alignment then some ((tipId, otherId), alignment) else acc)
    none

/-- The tearing branch of `propagateTear`: tear the chosen edge, move the tip
to the far vertex and mark it as tear tip and boundary. -/
def propagateApply (st : SimState) (tip : TearTip) (pa : (ℕ × ℕ) × ℚ) :
    SimState × TearTip :=
  let m1 := tearEdge st.mesh pa.1.1 pa.1.2
  let tip1 := { tip with vertexId := pa.1.2,
                         uvPosition := ((findVertex m1 pa.1.2).getD
                           defaultVertex).uv }
  let m2 := updateVertex m1 pa.1.2 (fun v => { v with isTearTip := true })
  let m3 := updateVertex m2 pa.1.2 (fun v => { v with isBoundary := true })
  ({ st with mesh := m3 }, tip1)

/-- tear-simulation.ts `propagateTear`: returns the updated simulation state
and the updated tip. -/
def propagateTear (sq : ℚ → ℚ) (st : SimState) (tip : TearTip) (dir : Vec2) :
    SimState × TearTip :=
  match bestTearCandidate sq st.mesh tip.vertexId
    ((findVertex st.mesh tip.vertexId).getD defaultVertex) dir with
  | some pa =>
    if 3 / 10 < pa.2 then propagateApply st tip pa
    else (st, tip)
  | none => (st, tip)

/-- `tip.energy += energy * dt` (step 4 of `processTearTip`). -/
def tipAfterAccum (tip : TearTip) (energy dt : ℚ) : TearTip :=
  { tip with energy := tip.energy + energy * dt }

/-- The over-threshold branch of `processTearTip`: propagate, then reset the
tip's energy to 0 and record the tear direction.  Note that the energy reset
happens after the `propagateTear` call unconditionally — also when the tear
stalled inside `propagateTear`. -/
def processTearTipFire (sq : ℚ → ℚ) (st : SimState) (tip1 : TearTip)
    (tearDir : Vec2) : SimState × TearTip :=
  let r := propagateTear sq st tip1 tearDir
  (r.1, { r.2 with energy := 0, tearDirection := tearDir })

/-- Steps 3-5 of `processTearTip`, given the two clusters. -/
def processTearTipDecide (sq : ℚ → ℚ) (cfg : PaperConfig) (st : SimState)
    (tip : TearTip) (dt : ℚ) (cA cB : ForceCluster) : SimState × TearTip :=
  if cfg.fractureThreshold <
      (tipAfterAccum tip (computeEnergyRelease cA cB) dt).energy then
    processTearTipFire sq st (tipAfterAccum tip (computeEnergyRelease cA cB) dt)
      (computeTearDirection sq cfg cA cB tip)
  else
    (st, { tipAfterAccum tip (computeEnergyRelease cA cB) dt with
           tearDirection := computeTearDirection sq cfg cA cB tip })

/-- Step 2 onwards of `processTearTip`, given the gathered forces'
clustering. -/
def processTearTipCore (sq : ℚ → ℚ) (cfg : PaperConfig) (st : SimState)
    (tip : TearTip) (dt : ℚ) (clusters : List ForceCluster) :
    SimState × TearTip :=
  if clusters.length < 2 then (st, tip)
  else processTearTipDecide sq cfg st tip dt (clusters.getD 0 default)
    (clusters.getD 1 default)

/-- tear-simulation.ts `processTearTip`. -/
def processTearTip (sq : ℚ → ℚ) (cfg : PaperConfig) (st : SimState)
    (tip : TearTip) (dt : ℚ) : SimState × TearTip :=
  match findVertex st.mesh tip.vertexId with
  | none => (st, tip)
  | some vertex =>
    if vertex.isBoundary = false then (st, tip)
    else processTearTipCore sq cfg st tip dt
      (clusterForces sq (gatherTipForces sq st tip vertex))

/-- The per-vertex body of `integrate`: semi-implicit Euler on non-pinned
vertices, with the z coordinate clamped to [-1/2, 1/2]. -/
def integrateVertex (st : SimState) (dt : ℚ) (v : PaperVertex) : PaperVertex :=
  if v.pinned then v
  else
    let force := getForce st v.id
    let acc := vec3.scale force (1 / v.mass)
    let vel := vec3.add v.velocity (vec3.scale acc dt)
    let pos := vec3.add v.position (vec3.scale vel dt)
    { v with velocity := vel,
             position := ⟨pos.x, pos.y, max (-(1 / 2)) (min (1 / 2) pos.z)⟩ }

/-- tear-simulation.ts `integrate` (skips pinned vertices). -/
def integrate (st : SimState) (dt : ℚ) : PaperMesh :=
  { st.mesh with vertices := st.mesh.vertices.map (integrateVertex st dt) }

/-- tear-simulation.ts `step`. -/
def step (sq : ℚ → ℚ) (cfg : PaperConfig) (st : SimState) (dt : ℚ) : SimState :=
  let s0 := { st with vertexForces := [] }
  let s1 := computeInternalForces sq cfg s0
  let s2 := applyExternalForces cfg s1
  let s3 := s2.tearTips.foldl (fun (acc : SimState × List TearTip) tip =>
    let r := processTearTip sq cfg acc.1 tip dt
    (r.1, acc.2 ++ [r.2])) (s2, [])
  let s4 := { s3.1 with tearTips := s3.2 }
  { s4 with mesh := integrate s4 dt }

/-- tear-simulation.ts `startGrab`; the accumulator `none` models
`nearest = null, nearestDist = Infinity`. -/
def startGrab (sq : ℚ → ℚ) (cfg : PaperConfig) (st : SimState)
    (uvPosition : Vec2) : SimState :=
  let nearest := st.mesh.vertices.foldl (fun (acc : Option (ℕ × ℚ)) v =>
    if v.pinned then acc
    else
      let dist := vec2.length sq (vec2.sub v.uv uvPosition)
      match acc with
      | none => if dist < cfg.grabRadius then some (v.id, dist) else acc
      | some pa =>
        if dist < pa.2 ∧ dist < cfg.grabRadius then some (v.id, dist) else acc)
    none
  { st with grabVertex := nearest.map Prod.fst }

/-- tear-simulation.ts `initiateTearAt`. -/
def initiateTearAt (st : SimState) (i : ℕ) : SimState :=
  match findVertex st.mesh i with
  | none => st
  | some vertex =>
    if vertex.isBoundary = false then st
    else if st.tearTips.any (fun t => t.vertexId == i) then st
    else
      let tip : TearTip := { vertexId := i, uvPosition := vertex.uv,
                             tearDirection := ⟨0, 1⟩, energy := 0 }
      { st with tearTips := st.tearTips ++ [tip],
                mesh := updateVertex st.mesh i
                  (fun v => { v with isTearTip := true }) }

/-- The spring force stored by `updateGrab` for grab vertex `g`. -/
def grabSpringForce (cfg : PaperConfig) (st : SimState)
    (targetPosition : Vec3) (g : ℕ) : Vec3 :=
  vec3.scale
    (vec3.sub targetPosition ((findVertex st.mesh g).getD
      defaultVertex).position)
    cfg.grabStiffness

/-- The body of `updateGrab` once a grab vertex `g` is active: store the
spring force, then auto-initiate a tear when it exceeds twice the fracture
threshold on a boundary vertex. -/
def updateGrabApply (sq : ℚ → ℚ) (cfg : PaperConfig) (st : SimState)
    (targetPosition : Vec3) (g : ℕ) : SimState :=
  if cfg.fractureThreshold * 2 <
        vec3.length sq (grabSpringForce cfg st targetPosition g) ∧
      ((findVertex st.mesh g).getD defaultVertex).isBoundary then
    initiateTearAt
      { st with grabForce := grabSpringForce cfg st targetPosition g } g
  else { st with grabForce := grabSpringForce cfg st targetPosition g }

/-- tear-simulation.ts `updateGrab`. -/
def updateGrab (sq : ℚ → ℚ) (cfg : PaperConfig) (st : SimState)
    (targetPosition : Vec3) : SimState :=
  match st.grabVertex with
  | none => st
  | some g => updateGrabApply sq cfg st targetPosition g

/-- tear-simulation.ts `endGrab`. -/
def endGrab (st : SimState) : SimState :=
  { st with grabVertex := none, grabForce := ⟨0, 0, 0⟩ }

/-- Number of entries of the vertex map. -/
def vertexCount (m : PaperMesh) : ℕ := m.vertices.length

/-- Number of entries of the triangle map. -/
def triangleCount (m : PaperMesh) : ℕ := m.triangles.length

/-- Sum of the masses of all vertices. -/
def massSum (m : PaperMesh) : ℚ := (m.vertices.map PaperVertex.mass).sum

/-- A triangle registers the key `k` in `rebuildEdges` when one of its three
edges has that canonical key. -/
def triRegisters (t : PaperTriangle) (k : ℕ × ℕ) : Bool :=
  (edgeKey t.v0 t.v1 == k) || (edgeKey t.v1 t.v2 == k) ||
  (edgeKey t.v2 t.v0 == k)

/-- All vertex ids stored anywhere in the mesh are below `nextVertexId`
(holds in every reachable mesh state). -/
def NextIdFresh (m : PaperMesh) : Prop :=
  (∀ v ∈ m.vertices, v.id < m.nextVertexId) ∧
  (∀ t ∈ m.triangles, t.v0 < m.nextVertexId ∧ t.v1 < m.nextVertexId ∧
    t.v2 < m.nextVertexId)

instance (m : PaperMesh) : Decidable (NextIdFresh m) := by
  unfold NextIdFresh; infer_instance

/-- Every triangle references three pairwise distinct vertex ids. -/
def TriDistinct (m : PaperMesh) : Prop :=
  ∀ t ∈ m.triangles, t.v0 ≠ t.v1 ∧ t.v1 ≠ t.v2 ∧ t.v0 ≠ t.v2

instance (m : PaperMesh) : Decidable (TriDistinct m) := by
  unfold TriDistinct; infer_instance

/-- Triangle ids are pairwise distinct. -/
def TriIdsNodup (m : PaperMesh) : Prop :=
  (m.triangles.map PaperTriangle.id).Nodup

instance (m : PaperMesh) : Decidable (TriIdsNodup m) := by
  unfold TriIdsNodup; infer_instance

/-- Every stored edge's adjacency list is exactly the (ordered) list of ids
of the triangles that contain both of its endpoints — the state `rebuildEdges`
leaves the edge map in, hence an invariant of every reachable mesh state. -/
def EdgesDerived (m : PaperMesh) : Prop :=
  ∀ e ∈ m.edges,
    e.triangles =
      (m.triangles.filter (fun t => triRegisters t (e.ev0, e.ev1))).map
        PaperTriangle.id

instance (m : PaperMesh) : Decidable (EdgesDerived m) := by
  unfold EdgesDerived; infer_instance

/-- Floor square root of a natural number by linear search (kernel-friendly;
agrees with `Nat.sqrt`). -/
def natSqrtLin (n : ℕ) : ℕ :=
  ((List.range (n + 1)).filter (fun k => k * k ≤ n)).length - 1

/-- A concrete square-root function used to instantiate the `sq` parameter in
the closed evaluations below.  On every argument actually reached there, the
argument is a square of a rational and `qSqrt` returns its exact square root,
agreeing with JavaScript's `Math.sqrt`. -/
def qSqrt (q : ℚ) : ℚ := mkRat (natSqrtLin q.num.toNat) (natSqrtLin q.den)

/-- A demonstration configuration: unit square, one subdivision. -/
def demoCfg : PaperConfig :=
  { width := 1, height := 1, subdivisions := 1, stiffness := 100,
    bendingStiffness := 0, damping := 1 / 2, density := 1,
    fractureThreshold := 1, tearResistance := 1, fiberDirection := ⟨1, 0⟩,
    fiberAnisotropy := 0, grabRadius := 1 / 10, grabStiffness := 10 }

/-- The 2x2-vertex, 2-triangle mesh built from `demoCfg`. -/
def demoMesh : PaperMesh := buildInitialMesh demoCfg

/-- A fresh simulation state on `demoMesh`. -/
def demoState : SimState :=
  { mesh := demoMesh, tearTips := [], grabVertex := none,
    grabForce := ⟨0, 0, 0⟩, vertexForces := [] }

/-- A configuration with a large subdivision count, for evaluating the total
vertex mass of a finely subdivided unit sheet. -/
def cfgC3 : PaperConfig := { demoCfg with subdivisions := 10 }

/-- Configuration with full fiber anisotropy along the direction
`(-4/5, 3/5)`. -/
def cfgC7 : PaperConfig :=
  { demoCfg with fiberAnisotropy := 1, fiberDirection := ⟨-(4 / 5), 3 / 5⟩ }

/-- A force cluster pulling towards `(3/5, 4/5)`. -/
def cAC7 : ForceCluster := { direction := ⟨3 / 5, 4 / 5⟩, magnitude := 1, forces := [] }

/-- A force cluster pulling towards `(3/5, -4/5)`. -/
def cBC7 : ForceCluster := { direction := ⟨3 / 5, -(4 / 5)⟩, magnitude := 1, forces := [] }

/-- A tear tip whose previous tear direction is `(1, 0)`. -/
def tipC7 : TearTip :=
  { vertexId := 0, uvPosition := ⟨0, 0⟩, tearDirection := ⟨1, 0⟩, energy := 0 }

/-- The demo mesh after inserting a vertex at the midpoint of its interior
diagonal edge (1, 2); the new vertex (id 4) is interior to the sheet. -/
def mC4 : PaperMesh := (insertVertexOnEdge demoMesh 1 2 (1 / 2)).1


/-- A tear tip at vertex 0 with previous direction `(0, 1)` and a large
accumulated energy. -/
def tipC6 : TearTip :=
  { vertexId := 0, uvPosition := ⟨0, 1 / 2⟩, tearDirection := ⟨0, 1⟩,
    energy := 10 }

/-- A one-triangle mesh whose two edges incident to vertex 0 make UV angles
of `±asin(7/25)` with the x-axis, so that both alignments with the computed
tear direction `(0, 1)` are at most `7/25 < 3/10`. -/
def meshC6 : PaperMesh :=
  rebuildEdges
    { vertices := [
        { id := 0, position := ⟨0, 0, 0⟩, uv := ⟨0, 1 / 2⟩,
          velocity := ⟨0, 0, 0⟩, mass := 1, pinned := false,
          isBoundary := false, isTearTip := true },
        { id := 1, position := ⟨0, 0, 0⟩, uv := ⟨12 / 25, 16 / 25⟩,
          velocity := ⟨0, 0, 0⟩, mass := 1, pinned := false,
          isBoundary := false, isTearTip := false },
        { id := 2, position := ⟨0, 0, 0⟩, uv := ⟨12 / 25, 9 / 25⟩,
          velocity := ⟨0, 0, 0⟩, mass := 1, pinned := false,
          isBoundary := false, isTearTip := false }],
      triangles := [
        { id := 0, v0 := 0, v1 := 1, v2 := 2, restArea := 42 / 625,
          neighbors := [] }],
      edges := [], nextVertexId := 3, nextTriangleId := 1, nextEdgeId := 0 }

/-- A simulation state on `meshC6` with forces of magnitude 5 stored at the
two neighbors of the tip. -/
def stC6 : SimState :=
  { mesh := meshC6, tearTips := [tipC6], grabVertex := none,
    grabForce := ⟨0, 0, 0⟩,
    vertexForces := [(1, ⟨0, 3, 4⟩), (2, ⟨5, 0, 0⟩)] }

/-- `VertexMarked vs i`: every record in `vs` with id `i` has
`isBoundary = true`. -/
def VertexMarked (vs : List PaperVertex) (i : ℕ) : Prop :=
  ∀ w ∈ vs, w.id = i → w.isBoundary = true

/-- Full preservation of one vertex record, with monotone `isBoundary`. -/
def KeptFull (v v2 : PaperVertex) : Prop :=
  v2.position = v.position ∧ v2.velocity = v.velocity ∧ v2.uv = v.uv ∧
  v2.mass = v.mass ∧ v2.pinned = v.pinned ∧
  (v.isBoundary = true → v2.isBoundary = true)

/-- Preservation of `pinned` and monotone `isBoundary` only (what
`integrate` guarantees for all vertices). -/
def KeptFlags (v v2 : PaperVertex) : Prop :=
  v2.pinned = v.pinned ∧ (v.isBoundary = true → v2.isBoundary = true)

/-- `VKept R vs vs2`: any id found in `vs` is found in `vs2` with a record
related by `R`. -/
def VKept (R : PaperVertex → PaperVertex → Prop)
    (vs vs2 : List PaperVertex) : Prop :=
  ∀ i v, vs.find? (fun w => w.id == i) = some v →
    ∃ v2, vs2.find? (fun w => w.id == i) = some v2 ∧ R v v2

/-- All vertex ids in the map are below `nextVertexId` (vertex part of the
reachable-state freshness invariant). -/
def VFresh (m : PaperMesh) : Prop :=
  ∀ v ∈ m.vertices, v.id < m.nextVertexId

instance (m : PaperMesh) : Decidable (VFresh m) := by
  unfold VFresh; infer_instance

/-- All vertex ids referenced by triangles are below `nextVertexId`
(triangle part of the reachable-state freshness invariant). -/
def TriRefsFresh (m : PaperMesh) : Prop :=
  ∀ t ∈ m.triangles, t.v0 < m.nextVertexId ∧ t.v1 < m.nextVertexId ∧
    t.v2 < m.nextVertexId

instance (m : PaperMesh) : Decidable (TriRefsFresh m) := by
  unfold TriRefsFresh; infer_instance

/-- The ids of the triangles of `P` that register the edge key `k`
(contain the corresponding vertex pair), in order.  This is what the
edge-map rebuild stores in the `triangles` field of the edge with key
`k`. -/
def RegFilterIds (P : List PaperTriangle) (k : ℕ × ℕ) : List ℕ :=
  (P.filter (fun t => triRegisters t k)).map PaperTriangle.id

/-- Invariant of the edge-map rebuild: after processing the triangles
`P`, every stored edge's triangle list is exactly the ids of the
processed triangles registering its key, and a key with no stored edge is
registered by no processed triangle. -/
def EdgesSpec (P : List PaperTriangle) (es : List PaperEdge) : Prop :=
  (∀ e ∈ es, e.triangles = RegFilterIds P (e.ev0, e.ev1)) ∧
  (∀ k : ℕ × ℕ, es.any (fun e => (e.ev0, e.ev1) == k) = false →
    RegFilterIds P k = [])

/-- Mid-triangle invariant of the edge-map rebuild: triangle `t` has had
the keys in `ks` processed already. -/
def MidSpec (P : List PaperTriangle) (t : PaperTriangle)
    (ks : List (ℕ × ℕ)) (es : List PaperEdge) : Prop :=
  (∀ e ∈ es, e.triangles = RegFilterIds P (e.ev0, e.ev1) ++
    (if (e.ev0, e.ev1) ∈ ks then [t.id] else [])) ∧
  (∀ k : ℕ × ℕ, es.any (fun e => (e.ev0, e.ev1) == k) = false →
    RegFilterIds P k = [] ∧ k ∉ ks)

/-- All three vertex references of every triangle are pairwise distinct —
list-level version. -/
def DistinctL (ts : List PaperTriangle) : Prop :=
  ∀ t ∈ ts, t.v0 ≠ t.v1 ∧ t.v1 ≠ t.v2 ∧ t.v0 ≠ t.v2

instance (ts : List PaperTriangle) : Decidable (DistinctL ts) := by
  unfold DistinctL; infer_instance

/-- The identity-relevant core of a triangle record: its id and three vertex
references (everything except the derived `restArea` and `neighbors`). -/
def triCore (t : PaperTriangle) : ℕ × ℕ × ℕ × ℕ := (t.id, t.v0, t.v1, t.v2)

/-- All vertex references of the triangles in `ts` are below `n` —
list-level version of `TriRefsFresh`. -/
def FreshL (ts : List PaperTriangle) (n : ℕ) : Prop :=
  ∀ t ∈ ts, t.v0 < n ∧ t.v1 < n ∧ t.v2 < n

instance (ts : List PaperTriangle) (n : ℕ) : Decidable (FreshL ts n) := by
  unfold FreshL; infer_instance

/-- How many of the two triangles of the grid cell whose lower-left vertex
has id `x` (in a grid with `C = cols + 1` vertices per row) register the
edge key `(p, q)`.  The first summand is the lower-left triangle
`(x, x+1, x+C)`, the second the upper-right triangle
`(x+1, x+C+1, x+C)`. -/
def wCell (C p q x : ℕ) : ℕ :=
  (if (p = x ∧ q = x + 1) ∨ (p = x + 1 ∧ q = x + C) ∨ (p = x ∧ q = x + C)
   then 1 else 0) +
  (if (p = x + 1 ∧ q = x + C + 1) ∨ (p = x + C ∧ q = x + C + 1) ∨
      (p = x + 1 ∧ q = x + C)
   then 1 else 0)

/-- A 2×2-subdivision configuration for the construction-invariant
witness. -/
def cfgC1 : PaperConfig := { demoCfg with subdivisions := 2 }

/-- The mesh state before the triangle loop of `buildInitialMesh`. -/
def gridBase (cfg : PaperConfig) (cols rows : ℕ) : PaperMesh :=
  { vertices := initialVertices cfg cols rows,
    triangles := [], edges := [],
    nextVertexId := (rows + 1) * (cols + 1),
    nextTriangleId := 0, nextEdgeId := 0 }

/-- The mesh after the triangle loop of `buildInitialMesh`, before the final
`rebuildEdges`. -/
def gridFold (cfg : PaperConfig) (cols rows : ℕ) : PaperMesh :=
  (cellList cols rows).foldl (addCellTriangles cols) (gridBase cfg cols rows)

/-! ## General lemmas about the embedded operations -/

theorem vec2_dot_scale_left (v w : Vec2) (s : ℚ) :
    vec2.dot (vec2.scale v s) w = s * vec2.dot v w := by
  unfold vec2.dot vec2.scale
  ring

theorem foldl_fixed {α β : Type} (f : β → α → β) (b : β) (l : List α)
    (hf : ∀ a ∈ l, f b a = b) : l.foldl f b = b := by
  induction l with
  | nil => rfl
  | cons a l ih =>
    rw [List.foldl_cons, hf a (by simp)]
    exact ih (fun x hx => hf x (by simp [hx]))

theorem mem_addEdgeList {es : List PaperEdge} {nid a b tid : ℕ}
    {e : PaperEdge} (he : e ∈ addEdgeList es nid a b tid) :
    (∃ d ∈ es, e = d ∨ e = { d with triangles := d.triangles ++ [tid] }) ∨
    e = { id := nid, ev0 := (edgeKey a b).1, ev1 := (edgeKey a b).2,
          triangles := [tid], isBoundary := true, isTorn := false,
          tearProgress := 0 } := by
  unfold addEdgeList at he
  by_cases hc : es.any (fun d => (d.ev0, d.ev1) == edgeKey a b)
  · rw [if_pos hc] at he
    rcases List.mem_map.mp he with ⟨d, hd, hde⟩
    left
    refine ⟨d, hd, ?_⟩
    by_cases hk : ((d.ev0, d.ev1) == edgeKey a b) = true
    · by_cases ht : tid ∈ d.triangles
      · rw [if_pos hk, if_pos ht] at hde
        exact Or.inl hde.symm
      · rw [if_pos hk, if_neg ht] at hde
        exact Or.inr hde.symm
    · rw [if_neg hk] at hde
      exact Or.inl hde.symm
  · rw [if_neg hc] at he
    rcases List.mem_append.mp he with h | h
    · exact Or.inl ⟨e, h, Or.inl rfl⟩
    · right
      simpa using h

theorem addEdgeList_freshFlags {es : List PaperEdge} {nid a b tid : ℕ}
    (h : ∀ e ∈ es, e.isTorn = false ∧ e.tearProgress = 0) :
    ∀ e ∈ addEdgeList es nid a b tid,
      e.isTorn = false ∧ e.tearProgress = 0 := by
  intro e he
  rcases mem_addEdgeList he with ⟨d, hd, h1 | h1⟩ | h1
  · rw [h1]; exact h d hd
  · rw [h1]; exact ⟨(h d hd).1, (h d hd).2⟩
  · rw [h1]; exact ⟨rfl, rfl⟩

theorem addTriEdges_freshFlags {es : List PaperEdge} {nid : ℕ}
    {t : PaperTriangle}
    (h : ∀ e ∈ es, e.isTorn = false ∧ e.tearProgress = 0) :
    ∀ e ∈ (addTriEdges es nid t).1,
      e.isTorn = false ∧ e.tearProgress = 0 := by
  unfold addTriEdges addEdgeStep
  exact addEdgeList_freshFlags (addEdgeList_freshFlags
    (addEdgeList_freshFlags h))

theorem buildEdgeFold_freshFlags (ts : List PaperTriangle)
    (acc : List PaperEdge × ℕ)
    (h : ∀ e ∈ acc.1, e.isTorn = false ∧ e.tearProgress = 0) :
    ∀ e ∈ (buildEdgeFold ts acc).1,
      e.isTorn = false ∧ e.tearProgress = 0 := by
  induction ts generalizing acc with
  | nil => exact h
  | cons t ts ih =>
    intro e he
    exact ih (addTriEdges acc.1 acc.2 t) (addTriEdges_freshFlags h) e he

/-! ## C8: edge flags are fresh after every `rebuildEdges` -/

/-- C8: immediately after every call to `rebuildEdges()` — hence after every
topology mutation, which all end in `rebuildEdges` — every edge record in the
edge map has `isTorn = false` and `tearProgress = 0`: the edge map is cleared
and re-derived from triangles with fresh flags, so torn status does not
survive a rebuild. -/
theorem C8_rebuild_resets_tear_flags (m : PaperMesh) (e : PaperEdge)
    (he : e ∈ (rebuildEdges m).edges) :
    e.isTorn = false ∧ e.tearProgress = 0 := by
  unfold rebuildEdges at he
  simp only at he
  unfold flagEdges at he
  rcases List.mem_map.mp he with ⟨d, hd, rfl⟩
  have := buildEdgeFold_freshFlags
    (m.triangles.map (fun t => { t with neighbors := ([] : List ℕ) }))
    ([], m.nextEdgeId) (by intro e h; simp at h) d hd
  exact this

/-- Witness for C8 on a concrete mesh: the first edge of the rebuilt demo
mesh has fresh tear flags. -/
theorem C8_rebuild_resets_tear_flags_witness :
    ((rebuildEdges demoMesh).edges.getD 0 default).isTorn = false ∧
    ((rebuildEdges demoMesh).edges.getD 0 default).tearProgress = 0 :=
  C8_rebuild_resets_tear_flags demoMesh _ (by with_unfolding_all decide)

/-! ## C7: sign of the computed tear direction

The sign-correction step of `computeTearDirection` does guarantee a
non-negative dot product with the tip's previous tear direction, but only for
the direction *before* the fiber-anisotropy blend: the blend can flip the
sign.  `C7_counterexample` exhibits clusters, a tip and a configuration with
`fiberAnisotropy = 1` for which the returned direction has dot product
`-4/5 < 0` with the previous direction (all square roots arising in the
evaluation are exact). -/

/-- C7 (amended): for every pair of force clusters and every tip, if the
fiber-anisotropy blend is disabled (`fiberAnisotropy ≤ 0`), the tear
direction returned by `computeTearDirection` has a non-negative dot product
with the tip's previous persisted `tearDirection`; with `fiberAnisotropy > 0`
the blend can make the dot product negative (see the counterexample). -/
theorem C7_tear_direction_sign (sq : ℚ → ℚ) (cfg : PaperConfig)
    (cA cB : ForceCluster) (tip : TearTip)
    (h : cfg.fiberAnisotropy ≤ 0) :
    0 ≤ vec2.dot (computeTearDirection sq cfg cA cB tip) tip.tearDirection := by
  unfold computeTearDirection
  rw [if_neg (not_lt.mpr h)]
  set td0 := vec2.perpendicular (vec2.bisector sq cA.direction cB.direction)
    with htd0
  by_cases hd : vec2.dot td0 tip.tearDirection < 0
  · rw [if_pos hd, vec2_dot_scale_left]
    linarith
  · rw [if_neg hd]
    exact not_lt.mp hd

/-- Witness for C7 at a concrete input: with the demo configuration (zero
fiber anisotropy) the returned tear direction has non-negative dot product
with the previous one. -/
theorem C7_tear_direction_sign_witness :
    0 ≤ vec2.dot (computeTearDirection qSqrt demoCfg cAC7 cBC7 tipC7)
      tipC7.tearDirection :=
  C7_tear_direction_sign qSqrt demoCfg cAC7 cBC7 tipC7
    (by with_unfolding_all decide)

/-- Counterexample to C7 as stated: with `fiberAnisotropy = 1 > 0` and fiber
direction `(-4/5, 3/5)`, clusters pulling towards `(3/5, ±4/5)` and previous
tear direction `(1, 0)`, the pre-blend direction is `(0, 1)` (dot `0`, so the
sign-correction does not negate), and the blend returns `(-4/5, 3/5)` whose
dot product with the previous direction is `-4/5 < 0`.  Every square root in
this evaluation has a perfect-square argument, so `qSqrt` agrees with
`Math.sqrt` throughout. -/
theorem C7_counterexample :
    0 < cfgC7.fiberAnisotropy ∧
    computeTearDirection qSqrt cfgC7 cAC7 cBC7 tipC7 = ⟨-(4 / 5), 3 / 5⟩ ∧
    vec2.dot (computeTearDirection qSqrt cfgC7 cAC7 cBC7 tipC7)
      tipC7.tearDirection < 0 := by
  with_unfolding_all decide

/-! ## C10: a grab that finds no vertex leaves the simulation inert -/

/-- C10: if `startGrab(uv)` finds no non-pinned vertex whose UV distance to
`uv` is strictly below `grabRadius`, the grab vertex is set to `null`; and
every `updateGrab` call in a state whose grab vertex is `null` returns the
state entirely unchanged (no grab force stored, no tear tip created, mesh
untouched). -/
theorem C10_missed_grab_inert (sq : ℚ → ℚ) (cfg : PaperConfig)
    (st : SimState) (uv : Vec2)
    (h : ∀ v ∈ st.mesh.vertices, v.pinned = false →
      ¬ (vec2.length sq (vec2.sub v.uv uv) < cfg.grabRadius)) :
    (startGrab sq cfg st uv).grabVertex = none ∧
    (∀ st2 : SimState, st2.grabVertex = none →
      ∀ target : Vec3, updateGrab sq cfg st2 target = st2) := by
  constructor
  · unfold startGrab
    have hfold : (st.mesh.vertices.foldl (fun (acc : Option (ℕ × ℚ)) v =>
        if v.pinned then acc
        else
          let dist := vec2.length sq (vec2.sub v.uv uv)
          match acc with
          | none => if dist < cfg.grabRadius then some (v.id, dist) else acc
          | some pa =>
            if dist < pa.2 ∧ dist < cfg.grabRadius then some (v.id, dist)
            else acc) none) = none := by
      refine foldl_fixed _ none st.mesh.vertices ?_
      intro v hv
      by_cases hp : v.pinned
      · simp only [if_pos hp]
      · have hpf : v.pinned = false := by
          cases hvp : v.pinned
          · rfl
          · exact absurd hvp hp
        simp only [if_neg hp]
        rw [if_neg (h v hv hpf)]
    simp only
    rw [hfold]
    rfl
  · intro st2 h2 target
    unfold updateGrab
    rw [h2]

/-- Witness for C10: grabbing at UV `(5, 5)`, far outside the unit square,
finds no vertex, and `updateGrab` on the resulting inert state is the
identity. -/
theorem C10_missed_grab_inert_witness :
    (startGrab qSqrt demoCfg demoState ⟨5, 5⟩).grabVertex = none ∧
    updateGrab qSqrt demoCfg demoState ⟨1, 1, 1⟩ = demoState := by
  have h := C10_missed_grab_inert qSqrt demoCfg demoState ⟨5, 5⟩
    (by with_unfolding_all decide)
  exact ⟨h.1, h.2 demoState (by with_unfolding_all decide) ⟨1, 1, 1⟩⟩

/-! ## C3: total vertex mass of a freshly built mesh

Every vertex gets mass `density * cellWidth * cellHeight / 4` and there are
`(rows+1)*(cols+1)` vertices, so the total is
`density * width * height * (rows+1)(cols+1) / (4 * cols * rows)` — about a
*quarter* of `density * width * height`, not approximately equal to it. -/

theorem map_mass_markVertexBoundary (vs : List PaperVertex) (i : ℕ) :
    (markVertexBoundary vs i).map PaperVertex.mass = vs.map PaperVertex.mass := by
  unfold markVertexBoundary
  rw [List.map_map]
  apply List.map_congr_left
  intro w _
  show PaperVertex.mass (if w.id == i then _ else w) = w.mass
  split <;> rfl

theorem map_mass_markBoundaryVertices (es : List PaperEdge) :
    ∀ vs : List PaperVertex,
      (markBoundaryVertices vs es).map PaperVertex.mass =
        vs.map PaperVertex.mass := by
  induction es with
  | nil => intro vs; rfl
  | cons e es ih =>
    intro vs
    show ((markBoundaryVertices · es) _).map PaperVertex.mass = _
    by_cases hb : e.isBoundary = true
    · show (markBoundaryVertices
        (if e.isBoundary then
          markVertexBoundary (markVertexBoundary vs e.ev0) e.ev1 else vs)
        es).map PaperVertex.mass = _
      rw [if_pos hb, ih, map_mass_markVertexBoundary,
        map_mass_markVertexBoundary]
    · show (markBoundaryVertices
        (if e.isBoundary then
          markVertexBoundary (markVertexBoundary vs e.ev0) e.ev1 else vs)
        es).map PaperVertex.mass = _
      rw [if_neg hb, ih]

theorem map_mass_rebuildEdges (m : PaperMesh) :
    (rebuildEdges m).vertices.map PaperVertex.mass =
      m.vertices.map PaperVertex.mass := by
  unfold rebuildEdges
  exact map_mass_markBoundaryVertices _ m.vertices

theorem foldl_addCellTriangles_vertices (cols : ℕ) (L : List (ℕ × ℕ)) :
    ∀ m : PaperMesh, (L.foldl (addCellTriangles cols) m).vertices = m.vertices := by
  induction L with
  | nil => intro m; rfl
  | cons ji L ih =>
    intro m
    rw [List.foldl_cons, ih]
    rfl

theorem sum_map_mass_range (n : ℕ) (f : ℕ → PaperVertex) (K : ℚ)
    (hf : ∀ i, (f i).mass = K) :
    (((List.range n).map f).map PaperVertex.mass).sum = (n : ℚ) * K := by
  induction n with
  | zero => simp
  | succ n ih =>
    rw [List.range_succ, List.map_append, List.map_append, List.sum_append, ih]
    simp [hf n]
    ring

theorem sum_map_mass_flatMap (R : ℕ) (g : ℕ → List PaperVertex) (S : ℚ)
    (hg : ∀ j, ((g j).map PaperVertex.mass).sum = S) :
    (((List.range R).flatMap g).map PaperVertex.mass).sum = (R : ℚ) * S := by
  induction R with
  | zero => simp
  | succ R ih =>
    rw [List.range_succ, List.flatMap_append, List.map_append, List.sum_append,
      ih]
    simp [hg R]
    ring

theorem massSum_buildInitialMesh (cfg : PaperConfig) :
    massSum (buildInitialMesh cfg) =
      ((gridRows cfg : ℚ) + 1) * (((gridCols cfg : ℚ) + 1) *
        (cfg.density * (cfg.width / (gridCols cfg : ℚ)) *
          (cfg.height / (gridRows cfg : ℚ)) / 4)) := by
  unfold massSum buildInitialMesh
  rw [map_mass_rebuildEdges]
  rw [foldl_addCellTriangles_vertices]
  show ((initialVertices cfg (gridCols cfg) (gridRows cfg)).map
    PaperVertex.mass).sum = _
  unfold initialVertices
  rw [sum_map_mass_flatMap (gridRows cfg + 1) _
    (((gridCols cfg : ℚ) + 1) *
      (cfg.density * (cfg.width / (gridCols cfg : ℚ)) *
        (cfg.height / (gridRows cfg : ℚ)) / 4))
    (fun j => by
      rw [sum_map_mass_range (gridCols cfg + 1) _
        (cfg.density * (cfg.width / (gridCols cfg : ℚ)) *
          (cfg.height / (gridRows cfg : ℚ)) / 4) (fun i => rfl)]
      push_cast
      ring)]
  push_cast
  ring

theorem one_le_gridRows (cfg : PaperConfig) (hw : 0 < cfg.width)
    (hh : 0 < cfg.height) (hs : 1 ≤ cfg.subdivisions) : 1 ≤ gridRows cfg := by
  unfold gridRows
  have hx : (0 : ℚ) < (cfg.subdivisions : ℚ) * (cfg.height / cfg.width) := by
    apply mul_pos
    · have : (0 : ℕ) < cfg.subdivisions := hs
      exact_mod_cast this
    · exact div_pos hh hw
  have hc := Int.ceil_pos.mpr hx
  omega

/-- C3 (amended): for every valid configuration, the total vertex mass of the
freshly built mesh equals
`density * width * height * (rows+1)(cols+1) / (4 * cols * rows)`, which
tends to a quarter of `density * width * height` as the subdivision count
grows — it is not approximately `density * width * height` itself (see the
counterexample). -/
theorem C3_mass_sum_formula (cfg : PaperConfig) (hw : 0 < cfg.width)
    (hh : 0 < cfg.height) (hs : 1 ≤ cfg.subdivisions) :
    massSum (buildInitialMesh cfg) =
      cfg.density * cfg.width * cfg.height *
        (((gridRows cfg : ℚ) + 1) * ((gridCols cfg : ℚ) + 1)) /
        (4 * (gridCols cfg : ℚ) * (gridRows cfg : ℚ)) := by
  have hr : 1 ≤ gridRows cfg := one_le_gridRows cfg hw hh hs
  have hrq : ((gridRows cfg : ℚ)) ≠ 0 := by
    have : (0 : ℕ) < gridRows cfg := hr
    exact_mod_cast Nat.pos_iff_ne_zero.mp this
  have hcq : ((gridCols cfg : ℚ)) ≠ 0 := by
    have : (0 : ℕ) < gridCols cfg := hs
    exact_mod_cast Nat.pos_iff_ne_zero.mp this
  rw [massSum_buildInitialMesh]
  field_simp
  ring

/-- Witness for C3 (amended) at the concrete configuration `cfgC3`
(unit square, density 1, 10 subdivisions). -/
theorem C3_mass_sum_formula_witness :
    massSum (buildInitialMesh cfgC3) =
      cfgC3.density * cfgC3.width * cfgC3.height *
        (((gridRows cfgC3 : ℚ) + 1) * ((gridCols cfgC3 : ℚ) + 1)) /
        (4 * (gridCols cfgC3 : ℚ) * (gridRows cfgC3 : ℚ)) :=
  C3_mass_sum_formula cfgC3 (by norm_num [cfgC3, demoCfg])
    (by norm_num [cfgC3, demoCfg]) (by norm_num [cfgC3, demoCfg])

/-- Counterexample to C3 as stated: for the unit sheet with density 1 and 10
subdivisions, the total vertex mass is `121/400 ≈ 0.30`, while
`density * width * height = 1`; the deficit `279/400` is a fixed fraction
(approaching 3/4 as subdivisions grow), not a discretization error. -/
theorem C3_counterexample :
    massSum (buildInitialMesh cfgC3) = 121 / 400 ∧
    cfgC3.density * cfgC3.width * cfgC3.height = 1 ∧
    cfgC3.density * cfgC3.width * cfgC3.height -
      massSum (buildInitialMesh cfgC3) = 279 / 400 := by
  have h := massSum_buildInitialMesh cfgC3
  have hrows : gridRows cfgC3 = 10 := by with_unfolding_all decide
  have hcols : gridCols cfgC3 = 10 := rfl
  rw [hrows, hcols] at h
  have hd : cfgC3.density = 1 := rfl
  have hw : cfgC3.width = 1 := rfl
  have hh : cfgC3.height = 1 := rfl
  rw [hd, hw, hh] at h ⊢
  rw [h]
  norm_num

/-! ## C4: boundary flags after `rebuildEdges`

`rebuildEdges` marks every endpoint of an edge with exactly one adjacent
triangle as a boundary vertex, but it never *clears* `isBoundary`, so the
converse direction of the claimed equivalence fails: `insertVertexOnEdge`
creates its new vertex with `isBoundary = true` even in the interior of the
sheet, and no later rebuild resets it. -/

theorem markVertexBoundary_sets (vs : List PaperVertex) (i : ℕ) :
    VertexMarked (markVertexBoundary vs i) i := by
  intro w hw hid
  rcases List.mem_map.mp hw with ⟨u, hu, huw⟩
  by_cases hb : (u.id == i) = true
  · rw [if_pos hb] at huw
    rw [← huw]
  · rw [if_neg hb] at huw
    rw [huw] at hb
    exact absurd (by exact beq_iff_eq.mpr hid) hb

theorem markVertexBoundary_keeps (vs : List PaperVertex) (i j : ℕ)
    (h : VertexMarked vs j) : VertexMarked (markVertexBoundary vs i) j := by
  intro w hw hid
  rcases List.mem_map.mp hw with ⟨u, hu, huw⟩
  by_cases hb : (u.id == i) = true
  · rw [if_pos hb] at huw
    rw [← huw]
  · rw [if_neg hb] at huw
    cases huw
    exact h _ hu hid

theorem markBoundaryVertices_cons (vs : List PaperVertex) (d : PaperEdge)
    (es : List PaperEdge) :
    markBoundaryVertices vs (d :: es) =
      markBoundaryVertices
        (if d.isBoundary then
          markVertexBoundary (markVertexBoundary vs d.ev0) d.ev1 else vs) es :=
  rfl

theorem markBoundaryVertices_keeps (es : List PaperEdge) (j : ℕ) :
    ∀ vs : List PaperVertex, VertexMarked vs j →
      VertexMarked (markBoundaryVertices vs es) j := by
  induction es with
  | nil => intro vs h; exact h
  | cons e es ih =>
    intro vs h
    rw [markBoundaryVertices_cons]
    by_cases hb : e.isBoundary = true
    · rw [if_pos hb]
      exact ih _ (markVertexBoundary_keeps _ _ _
        (markVertexBoundary_keeps _ _ _ h))
    · rw [if_neg hb]
      exact ih _ h

theorem markBoundaryVertices_sets (es : List PaperEdge) (e : PaperEdge)
    (hb : e.isBoundary = true) :
    ∀ vs : List PaperVertex, e ∈ es →
      VertexMarked (markBoundaryVertices vs es) e.ev0 ∧
      VertexMarked (markBoundaryVertices vs es) e.ev1 := by
  induction es with
  | nil => intro vs he; exact absurd he (List.not_mem_nil e)
  | cons d es ih =>
    intro vs he
    rw [markBoundaryVertices_cons]
    rcases List.mem_cons.mp he with rfl | he
    · rw [if_pos hb]
      constructor
      · exact markBoundaryVertices_keeps es e.ev0 _
          (markVertexBoundary_keeps _ _ _ (markVertexBoundary_sets vs e.ev0))
      · exact markBoundaryVertices_keeps es e.ev1 _
          (markVertexBoundary_sets _ e.ev1)
    · exact ih _ he

theorem flagEdges_isBoundary {es : List PaperEdge} {e : PaperEdge}
    (he : e ∈ flagEdges es) :
    e.isBoundary = (e.triangles.length == 1) := by
  rcases List.mem_map.mp he with ⟨d, _, rfl⟩
  rfl

/-- C4 (amended): after every call to `rebuildEdges()`, every endpoint of an
edge whose adjacent-triangle count is exactly 1 has `isBoundary = true`.  The
converse of the claimed equivalence fails: `isBoundary` is sticky — a vertex
created by `insertVertexOnEdge` keeps `isBoundary = true` even when all of
its incident edges have two adjacent triangles (see the counterexample). -/
theorem C4_boundary_vertices_marked (m : PaperMesh) (e : PaperEdge)
    (he : e ∈ (rebuildEdges m).edges) (h1 : e.triangles.length = 1)
    (i : ℕ) (hi : i = e.ev0 ∨ i = e.ev1) (v : PaperVertex)
    (hv : findVertex (rebuildEdges m) i = some v) :
    v.isBoundary = true := by
  have hb : e.isBoundary = true := by
    rw [flagEdges_isBoundary he]
    exact beq_iff_eq.mpr h1
  simp only [rebuildEdges] at he hv
  unfold findVertex at hv
  have hmem := List.mem_of_find?_eq_some hv
  have hid : v.id = i := by
    have := List.find?_some hv
    exact beq_iff_eq.mp this
  have hsets := markBoundaryVertices_sets
    (flagEdges (buildEdgeFold
      (m.triangles.map (fun t => { t with neighbors := ([] : List ℕ) }))
      ([], m.nextEdgeId)).1) e hb m.vertices he
  rcases hi with rfl | rfl
  · exact hsets.1 v hmem hid
  · exact hsets.2 v hmem hid

/-- Witness for C4 (amended): in the rebuilt demo mesh, the first edge is a
1-triangle edge and its endpoint 0 is marked boundary. -/
theorem C4_boundary_vertices_marked_witness :
    ((findVertex (rebuildEdges demoMesh) 0).getD defaultVertex).isBoundary =
      true :=
  C4_boundary_vertices_marked demoMesh
    ((rebuildEdges demoMesh).edges.getD 0 default)
    (by with_unfolding_all decide) (by with_unfolding_all decide)
    0 (by with_unfolding_all decide) _ (by with_unfolding_all decide)

/-- Counterexample to C4 as stated: in the reachable state `mC4`, produced by
`insertVertexOnEdge` on the interior diagonal (and therefore ending with a
`rebuildEdges()` call), vertex 4 has `isBoundary = true` yet every edge
incident to it has exactly two adjacent triangles — the claimed "only if"
direction of the equivalence is violated. -/
theorem C4_counterexample :
    (findVertex mC4 4).isSome = true ∧
    ((findVertex mC4 4).getD defaultVertex).isBoundary = true ∧
    (∀ e ∈ mC4.edges, e.triangles.length = 1 → e.ev0 ≠ 4 ∧ e.ev1 ≠ 4) := by
  with_unfolding_all decide

/-! ## Vertex-record preservation machinery (for C2 and C9)

No operation of the mesh manager or the simulation ever rewrites the
`position`, `velocity`, `uv`, `mass` or `pinned` field of an *existing*
vertex record except `integrate` (which rewrites `position`/`velocity` of
non-pinned vertices only), and `isBoundary` is only ever raised.  We track
this with a per-record relation threaded through every operation. -/

theorem keptFull_refl (v : PaperVertex) : KeptFull v v :=
  ⟨rfl, rfl, rfl, rfl, rfl, fun h => h⟩

theorem keptFull_trans {a b c : PaperVertex} (h1 : KeptFull a b)
    (h2 : KeptFull b c) : KeptFull a c := by
  obtain ⟨p1, q1, r1, s1, t1, u1⟩ := h1
  obtain ⟨p2, q2, r2, s2, t2, u2⟩ := h2
  exact ⟨p2.trans p1, q2.trans q1, r2.trans r1, s2.trans s1, t2.trans t1,
    fun h => u2 (u1 h)⟩

theorem keptFull_keptFlags {a b : PaperVertex} (h : KeptFull a b) :
    KeptFlags a b := ⟨h.2.2.2.2.1, h.2.2.2.2.2⟩

theorem vKept_refl (R : PaperVertex → PaperVertex → Prop)
    (hR : ∀ v, R v v) (vs : List PaperVertex) : VKept R vs vs :=
  fun _ v hv => ⟨v, hv, hR v⟩

theorem vKept_trans {R : PaperVertex → PaperVertex → Prop}
    (hR : ∀ a b c, R a b → R b c → R a c)
    {vs1 vs2 vs3 : List PaperVertex}
    (h1 : VKept R vs1 vs2) (h2 : VKept R vs2 vs3) : VKept R vs1 vs3 := by
  intro i v hv
  obtain ⟨v2, hv2, hr2⟩ := h1 i v hv
  obtain ⟨v3, hv3, hr3⟩ := h2 i v2 hv2
  exact ⟨v3, hv3, hR v v2 v3 hr2 hr3⟩

theorem kfTrans : ∀ a b c : PaperVertex,
    KeptFull a b → KeptFull b c → KeptFull a c :=
  fun _ _ _ p q => keptFull_trans p q

theorem vKept_map (R : PaperVertex → PaperVertex → Prop)
    (vs : List PaperVertex) (f : PaperVertex → PaperVertex)
    (hid : ∀ w, (f w).id = w.id) (hf : ∀ w, R w (f w)) :
    VKept R vs (vs.map f) := by
  intro i v hv
  have hp : ((fun w : PaperVertex => w.id == i) ∘ f) =
      (fun w : PaperVertex => w.id == i) := by
    funext w
    simp [Function.comp, hid]
  rw [List.find?_map, hp, hv]
  exact ⟨f v, rfl, hf v⟩

theorem find?_append_some {α : Type} {l1 l2 : List α} {p : α → Bool} {a : α}
    (h : l1.find? p = some a) : (l1 ++ l2).find? p = some a := by
  induction l1 with
  | nil => cases h
  | cons x l ih =>
    rw [List.cons_append, List.find?_cons] at *
    cases hp : p x
    · simp only [hp] at h ⊢
      exact ih h
    · simp only [hp] at h ⊢
      exact h

theorem vKept_append (R : PaperVertex → PaperVertex → Prop)
    (hR : ∀ v, R v v) (vs l2 : List PaperVertex) :
    VKept R vs (vs ++ l2) :=
  fun _ v hv => ⟨v, find?_append_some hv, hR v⟩

theorem markVertexBoundary_keptFull (vs : List PaperVertex) (j : ℕ) :
    VKept KeptFull vs (markVertexBoundary vs j) := by
  apply vKept_map
  · intro w
    by_cases hb : (w.id == j) = true
    · rw [if_pos hb]
    · rw [if_neg hb]
  · intro w
    by_cases hb : (w.id == j) = true
    · rw [if_pos hb]
      exact ⟨rfl, rfl, rfl, rfl, rfl, fun _ => rfl⟩
    · rw [if_neg hb]
      exact keptFull_refl w

theorem markBoundaryVertices_keptFull (es : List PaperEdge) :
    ∀ vs : List PaperVertex, VKept KeptFull vs (markBoundaryVertices vs es) := by
  induction es with
  | nil => intro vs; exact vKept_refl _ keptFull_refl vs
  | cons d es ih =>
    intro vs
    rw [markBoundaryVertices_cons]
    by_cases hb : d.isBoundary = true
    · rw [if_pos hb]
      exact vKept_trans kfTrans
        (vKept_trans kfTrans (markVertexBoundary_keptFull vs d.ev0)
          (markVertexBoundary_keptFull _ d.ev1)) (ih _)
    · rw [if_neg hb]
      exact ih vs

theorem rebuildEdges_keptFull (m : PaperMesh) :
    VKept KeptFull m.vertices (rebuildEdges m).vertices :=
  markBoundaryVertices_keptFull _ m.vertices

theorem setVertex_keptFull (vs : List PaperVertex) (nv : PaperVertex)
    (h : (vs.any (fun w => w.id == nv.id)) = false) :
    VKept KeptFull vs (setVertex vs nv) := by
  unfold setVertex
  rw [if_neg (by rw [h]; exact Bool.false_ne_true)]
  exact vKept_append _ keptFull_refl vs [nv]

theorem vFresh_any_eq_false (m : PaperMesh) (h : VFresh m) :
    (m.vertices.any (fun w => w.id == m.nextVertexId)) = false := by
  rw [List.any_eq_false]
  intro v hv
  have := h v hv
  simp only [beq_iff_eq]
  omega

theorem splitVertex_keptFull (m : PaperMesh) (i : ℕ) (tm : List ℕ)
    (h : VFresh m) :
    VKept KeptFull m.vertices (splitVertex m i tm).1.vertices := by
  unfold splitVertex
  simp only
  refine vKept_trans kfTrans ?_ (rebuildEdges_keptFull _)
  exact setVertex_keptFull m.vertices _ (vFresh_any_eq_false m h)

theorem updateVertex_keptFull (m : PaperMesh) (i : ℕ)
    (f : PaperVertex → PaperVertex)
    (hid : ∀ w, (f w).id = w.id) (hf : ∀ w, KeptFull w (f w)) :
    VKept KeptFull m.vertices (updateVertex m i f).vertices := by
  apply vKept_map
  · intro w
    by_cases hb : (w.id == i) = true
    · rw [if_pos hb]; exact hid w
    · rw [if_neg hb]
  · intro w
    by_cases hb : (w.id == i) = true
    · rw [if_pos hb]; exact hf w
    · rw [if_neg hb]; exact keptFull_refl w

/-! Freshness preservation through the operations. -/

theorem mem_markVertexBoundary_ids (vs : List PaperVertex) (j : ℕ)
    (v : PaperVertex) (hv : v ∈ markVertexBoundary vs j) :
    ∃ w ∈ vs, v.id = w.id := by
  rcases List.mem_map.mp hv with ⟨w, hw, hvw⟩
  refine ⟨w, hw, ?_⟩
  rw [← hvw]
  split <;> rfl

theorem mem_markBoundaryVertices_ids (es : List PaperEdge) :
    ∀ (vs : List PaperVertex) (v : PaperVertex),
      v ∈ markBoundaryVertices vs es → ∃ w ∈ vs, v.id = w.id := by
  induction es with
  | nil => intro vs v hv; exact ⟨v, hv, rfl⟩
  | cons d es ih =>
    intro vs v hv
    rw [markBoundaryVertices_cons] at hv
    obtain ⟨w, hw, hvw⟩ := ih _ v hv
    by_cases hb : d.isBoundary = true
    · rw [if_pos hb] at hw
      obtain ⟨u, hu, hwu⟩ := mem_markVertexBoundary_ids _ _ _ hw
      obtain ⟨u0, hu0, hu0u⟩ := mem_markVertexBoundary_ids _ _ _ hu
      exact ⟨u0, hu0, by rw [hvw, hwu, hu0u]⟩
    · rw [if_neg hb] at hw
      exact ⟨w, hw, hvw⟩

theorem vFresh_rebuildEdges (m : PaperMesh) (h : VFresh m) :
    VFresh (rebuildEdges m) := by
  intro v hv
  obtain ⟨w, hw, hvw⟩ := mem_markBoundaryVertices_ids _ m.vertices v hv
  show v.id < m.nextVertexId
  rw [hvw]
  exact h w hw

theorem mem_setVertex_ids (vs : List PaperVertex) (nv v : PaperVertex)
    (hv : v ∈ setVertex vs nv) : v.id = nv.id ∨ ∃ w ∈ vs, v.id = w.id := by
  unfold setVertex at hv
  by_cases hc : (vs.any (fun w => w.id == nv.id)) = true
  · rw [if_pos hc] at hv
    rcases List.mem_map.mp hv with ⟨w, hw, hvw⟩
    by_cases hb : (w.id == nv.id) = true
    · rw [if_pos hb] at hvw
      exact Or.inl (hvw ▸ rfl)
    · rw [if_neg hb] at hvw
      exact Or.inr ⟨w, hw, hvw ▸ rfl⟩
  · rw [if_neg hc] at hv
    rcases List.mem_append.mp hv with hv | hv
    · exact Or.inr ⟨v, hv, rfl⟩
    · simp only [List.mem_singleton] at hv
      exact Or.inl (hv ▸ rfl)

theorem vFresh_splitVertex (m : PaperMesh) (i : ℕ) (tm : List ℕ)
    (h : VFresh m) : VFresh (splitVertex m i tm).1 := by
  unfold splitVertex
  simp only
  apply vFresh_rebuildEdges
  intro v hv
  show v.id < m.nextVertexId + 1
  rcases mem_setVertex_ids m.vertices _ v hv with h1 | ⟨w, hw, h1⟩
  · rw [h1]
    show m.nextVertexId < m.nextVertexId + 1
    omega
  · rw [h1]; have := h w hw; omega

theorem vFresh_updateVertex (m : PaperMesh) (i : ℕ)
    (f : PaperVertex → PaperVertex) (hid : ∀ w, (f w).id = w.id)
    (h : VFresh m) : VFresh (updateVertex m i f) := by
  intro v hv
  rcases List.mem_map.mp hv with ⟨w, hw, hvw⟩
  show v.id < m.nextVertexId
  rw [← hvw]
  by_cases hb : (w.id == i) = true
  · rw [if_pos hb, hid w]; exact h w hw
  · rw [if_neg hb]; exact h w hw

theorem vFresh_mark_mesh (mv : PaperMesh) (j : ℕ) (h : VFresh mv) :
    VFresh { mv with vertices := markVertexBoundary mv.vertices j } := by
  intro v hv
  obtain ⟨w, hw, hvw⟩ := mem_markVertexBoundary_ids _ _ _ hv
  show v.id < mv.nextVertexId
  rw [hvw]
  exact h w hw

theorem mark_mesh_keptFull (mv : PaperMesh) (j : ℕ) :
    VKept KeptFull mv.vertices
      ({ mv with vertices := markVertexBoundary mv.vertices j }).vertices :=
  markVertexBoundary_keptFull mv.vertices j

theorem tearEdgeSplitBranch_keptFull (m1 : PaperMesh) (a b t1 : ℕ)
    (h : VFresh m1) :
    VKept KeptFull m1.vertices (tearEdgeSplitBranch m1 a b t1).vertices := by
  unfold tearEdgeSplitBranch markMeshVB
  refine vKept_trans kfTrans (splitVertex_keptFull m1 a [t1] h) ?_
  refine vKept_trans kfTrans
    (splitVertex_keptFull (splitVertex m1 a [t1]).1 b [t1]
      (vFresh_splitVertex m1 a [t1] h)) ?_
  refine vKept_trans kfTrans (markVertexBoundary_keptFull _ a) ?_
  refine vKept_trans kfTrans (markVertexBoundary_keptFull _ b) ?_
  refine vKept_trans kfTrans
    (markVertexBoundary_keptFull _ (splitVertex m1 a [t1]).2) ?_
  exact markVertexBoundary_keptFull _
    (splitVertex (splitVertex m1 a [t1]).1 b [t1]).2

theorem vFresh_markMeshVB (m : PaperMesh) (j : ℕ) (h : VFresh m) :
    VFresh (markMeshVB m j) :=
  vFresh_mark_mesh m j h

theorem vFresh_tearEdgeSplitBranch (m1 : PaperMesh) (a b t1 : ℕ)
    (h : VFresh m1) : VFresh (tearEdgeSplitBranch m1 a b t1) := by
  unfold tearEdgeSplitBranch
  apply vFresh_markMeshVB
  apply vFresh_markMeshVB
  apply vFresh_markMeshVB
  apply vFresh_markMeshVB
  exact vFresh_splitVertex _ b [t1] (vFresh_splitVertex m1 a [t1] h)

theorem vFresh_markTornEdge (m : PaperMesh) (a b : ℕ) (h : VFresh m) :
    VFresh (markTornEdge m a b) :=
  h

theorem tearEdge_keptFull (m : PaperMesh) (a b : ℕ) (h : VFresh m) :
    VKept KeptFull m.vertices (tearEdge m a b).vertices := by
  unfold tearEdge
  split
  · exact vKept_refl _ keptFull_refl _
  · split
    · exact vKept_refl _ keptFull_refl _
    · refine vKept_trans kfTrans ?_ (rebuildEdges_keptFull _)
      split
      · exact tearEdgeSplitBranch_keptFull (markTornEdge m a b) a b _
          (vFresh_markTornEdge m a b h)
      · exact vKept_refl _ keptFull_refl _

theorem vFresh_tearEdge (m : PaperMesh) (a b : ℕ) (h : VFresh m) :
    VFresh (tearEdge m a b) := by
  unfold tearEdge
  split
  · exact h
  · split
    · exact h
    · apply vFresh_rebuildEdges
      split
      · exact vFresh_tearEdgeSplitBranch (markTornEdge m a b) a b _
          (vFresh_markTornEdge m a b h)
      · exact vFresh_markTornEdge m a b h

theorem foldl_proj {α β γ : Type} (f : β → α → β) (p : β → γ)
    (hf : ∀ x a, p (f x a) = p x) (l : List α) :
    ∀ b, p (l.foldl f b) = p b := by
  induction l with
  | nil => intro b; rfl
  | cons a l ih =>
    intro b
    rw [List.foldl_cons, ih, hf]

theorem insertLoopStep_vertices (a b newId : ℕ) (mc : PaperMesh) (tid : ℕ) :
    (insertLoopStep a b newId mc tid).vertices = mc.vertices := by
  unfold insertLoopStep
  split
  · rfl
  · split <;> rfl

theorem insertLoop_vertices (a b newId : ℕ) (ts : List ℕ) (m1 : PaperMesh) :
    (ts.foldl (insertLoopStep a b newId) m1).vertices = m1.vertices :=
  foldl_proj _ _ (fun mc tid => insertLoopStep_vertices a b newId mc tid) ts m1

theorem insertLoopStep_nextVertexId (a b newId : ℕ) (mc : PaperMesh)
    (tid : ℕ) :
    (insertLoopStep a b newId mc tid).nextVertexId = mc.nextVertexId := by
  unfold insertLoopStep
  split
  · rfl
  · split <;> rfl

theorem insertLoop_nextVertexId (a b newId : ℕ) (ts : List ℕ)
    (m1 : PaperMesh) :
    (ts.foldl (insertLoopStep a b newId) m1).nextVertexId = m1.nextVertexId :=
  foldl_proj _ _ (fun mc tid => insertLoopStep_nextVertexId a b newId mc tid)
    ts m1

theorem insertMidVertex_id (m : PaperMesh) (a b : ℕ) (t : ℚ) :
    (insertMidVertex m a b t).id = m.nextVertexId :=
  rfl

theorem insertVertexOnEdge_keptFull (m : PaperMesh) (a b : ℕ) (t : ℚ)
    (h : VFresh m) :
    VKept KeptFull m.vertices (insertVertexOnEdge m a b t).1.vertices := by
  unfold insertVertexOnEdge
  simp only
  refine vKept_trans kfTrans ?_ (rebuildEdges_keptFull _)
  have hset : VKept KeptFull m.vertices
      (setVertex m.vertices (insertMidVertex m a b t)) := by
    apply setVertex_keptFull m.vertices (insertMidVertex m a b t)
    rw [insertMidVertex_id]
    exact vFresh_any_eq_false m h
  split
  · exact hset
  · rw [insertLoop_vertices]
    exact hset

theorem vFresh_insertVertexOnEdge (m : PaperMesh) (a b : ℕ) (t : ℚ)
    (h : VFresh m) : VFresh (insertVertexOnEdge m a b t).1 := by
  unfold insertVertexOnEdge
  simp only
  apply vFresh_rebuildEdges
  have hset : ∀ v ∈ setVertex m.vertices (insertMidVertex m a b t),
      v.id < m.nextVertexId + 1 := by
    intro v hv
    rcases mem_setVertex_ids _ _ _ hv with h1 | ⟨w, hw, h1⟩
    · rw [h1, insertMidVertex_id]
      omega
    · rw [h1]; have := h w hw; omega
  split
  · exact hset
  · intro v hv
    rw [insertLoop_vertices] at hv
    rw [insertLoop_nextVertexId]
    exact hset v hv

/-! ## Simulation-level preservation lemmas -/

theorem addForce_mesh (st : SimState) (i : ℕ) (f : Vec3) :
    (addForce st i f).mesh = st.mesh := by
  unfold addForce
  split <;> rfl

theorem computeInternalForces_mesh (sq : ℚ → ℚ) (cfg : PaperConfig)
    (st : SimState) : (computeInternalForces sq cfg st).mesh = st.mesh := by
  unfold computeInternalForces
  apply foldl_proj
  intro s tri
  simp only
  split
  · rfl
  · rw [addForce_mesh, addForce_mesh, addForce_mesh]

theorem applyExternalForces_mesh (cfg : PaperConfig) (st : SimState) :
    (applyExternalForces cfg st).mesh = st.mesh := by
  unfold applyExternalForces
  simp only
  have hfold : ∀ vs : List PaperVertex, ∀ s0 : SimState,
      (vs.foldl (fun s v =>
        if v.pinned then s
        else addForce (addForce s v.id (vec3.scale ⟨0, -(1 / 2), 0⟩ v.mass))
          v.id (vec3.scale v.velocity (-cfg.damping))) s0).mesh = s0.mesh := by
    intro vs s0
    apply foldl_proj
    intro s v
    split
    · rfl
    · rw [addForce_mesh, addForce_mesh]
  split
  · rw [addForce_mesh]
    exact hfold _ _
  · exact hfold _ _

theorem propagateApply_keptFull (st : SimState) (tip : TearTip)
    (pa : (ℕ × ℕ) × ℚ) (h : VFresh st.mesh) :
    VKept KeptFull st.mesh.vertices
      (propagateApply st tip pa).1.mesh.vertices := by
  unfold propagateApply
  simp only
  refine vKept_trans kfTrans (tearEdge_keptFull st.mesh pa.1.1 pa.1.2 h) ?_
  refine vKept_trans kfTrans
    (updateVertex_keptFull (tearEdge st.mesh pa.1.1 pa.1.2) pa.1.2
      (fun v => { v with isTearTip := true }) (fun _ => rfl)
      (fun w => ⟨rfl, rfl, rfl, rfl, rfl, fun hh => hh⟩)) ?_
  exact updateVertex_keptFull _ pa.1.2 (fun v => { v with isBoundary := true })
    (fun _ => rfl) (fun w => ⟨rfl, rfl, rfl, rfl, rfl, fun _ => rfl⟩)

theorem vFresh_propagateApply (st : SimState) (tip : TearTip)
    (pa : (ℕ × ℕ) × ℚ) (h : VFresh st.mesh) :
    VFresh (propagateApply st tip pa).1.mesh := by
  unfold propagateApply
  simp only
  exact vFresh_updateVertex _ _ _ (fun _ => rfl)
    (vFresh_updateVertex _ _ _ (fun _ => rfl)
      (vFresh_tearEdge _ _ _ h))

theorem propagateTear_keptFull (sq : ℚ → ℚ) (st : SimState) (tip : TearTip)
    (dir : Vec2) (h : VFresh st.mesh) :
    VKept KeptFull st.mesh.vertices
      (propagateTear sq st tip dir).1.mesh.vertices := by
  unfold propagateTear
  split
  · split
    · apply propagateApply_keptFull
      exact h
    · exact vKept_refl _ keptFull_refl _
  · exact vKept_refl _ keptFull_refl _

theorem vFresh_propagateTear (sq : ℚ → ℚ) (st : SimState) (tip : TearTip)
    (dir : Vec2) (h : VFresh st.mesh) :
    VFresh (propagateTear sq st tip dir).1.mesh := by
  unfold propagateTear
  split
  · split
    · apply vFresh_propagateApply
      exact h
    · exact h
  · exact h

theorem processTearTipFire_keptFull (sq : ℚ → ℚ) (st : SimState)
    (tip1 : TearTip) (tearDir : Vec2) (h : VFresh st.mesh) :
    VKept KeptFull st.mesh.vertices
      (processTearTipFire sq st tip1 tearDir).1.mesh.vertices := by
  unfold processTearTipFire
  exact propagateTear_keptFull sq st tip1 tearDir h

theorem processTearTip_keptFull (sq : ℚ → ℚ) (cfg : PaperConfig)
    (st : SimState) (tip : TearTip) (dt : ℚ) (h : VFresh st.mesh) :
    VKept KeptFull st.mesh.vertices
      (processTearTip sq cfg st tip dt).1.mesh.vertices := by
  unfold processTearTip
  split
  · exact vKept_refl _ keptFull_refl _
  · split
    · exact vKept_refl _ keptFull_refl _
    · unfold processTearTipCore
      split
      · exact vKept_refl _ keptFull_refl _
      · unfold processTearTipDecide
        split
        · apply processTearTipFire_keptFull
          exact h
        · exact vKept_refl _ keptFull_refl _

theorem vFresh_processTearTip (sq : ℚ → ℚ) (cfg : PaperConfig)
    (st : SimState) (tip : TearTip) (dt : ℚ) (h : VFresh st.mesh) :
    VFresh (processTearTip sq cfg st tip dt).1.mesh := by
  unfold processTearTip
  split
  · exact h
  · split
    · exact h
    · unfold processTearTipCore
      split
      · exact h
      · unfold processTearTipDecide
        split
        · unfold processTearTipFire
          apply vFresh_propagateTear
          exact h
        · exact h

theorem tipsFold_keptFull (sq : ℚ → ℚ) (cfg : PaperConfig) (dt : ℚ)
    (tips : List TearTip) :
    ∀ acc : SimState × List TearTip, VFresh acc.1.mesh →
      VKept KeptFull acc.1.mesh.vertices
        ((tips.foldl (fun acc tip =>
          let r := processTearTip sq cfg acc.1 tip dt
          (r.1, acc.2 ++ [r.2])) acc).1.mesh.vertices) ∧
      VFresh ((tips.foldl (fun acc tip =>
        let r := processTearTip sq cfg acc.1 tip dt
        (r.1, acc.2 ++ [r.2])) acc).1.mesh) := by
  induction tips with
  | nil => intro acc h; exact ⟨vKept_refl _ keptFull_refl _, h⟩
  | cons tip tips ih =>
    intro acc h
    rw [List.foldl_cons]
    have h1 := processTearTip_keptFull sq cfg acc.1 tip dt h
    have h2 := vFresh_processTearTip sq cfg acc.1 tip dt h
    have h3 := ih ((processTearTip sq cfg acc.1 tip dt).1,
      acc.2 ++ [(processTearTip sq cfg acc.1 tip dt).2]) h2
    exact ⟨vKept_trans kfTrans h1 h3.1, h3.2⟩

theorem integrateVertex_id (st : SimState) (dt : ℚ) (v : PaperVertex) :
    (integrateVertex st dt v).id = v.id := by
  unfold integrateVertex
  split <;> rfl

theorem integrateVertex_pinned (st : SimState) (dt : ℚ) (v : PaperVertex)
    (h : v.pinned = true) : integrateVertex st dt v = v := by
  unfold integrateVertex
  rw [if_pos h]

theorem integrateVertex_keptFlags (st : SimState) (dt : ℚ) (v : PaperVertex) :
    KeptFlags v (integrateVertex st dt v) := by
  unfold integrateVertex
  split
  · exact ⟨rfl, fun h => h⟩
  · exact ⟨rfl, fun h => h⟩

theorem integrate_keptFlags (st : SimState) (dt : ℚ) :
    VKept KeptFlags st.mesh.vertices (integrate st dt).vertices := by
  unfold integrate
  exact vKept_map _ _ _ (integrateVertex_id st dt)
    (integrateVertex_keptFlags st dt)

theorem integrate_find (st : SimState) (dt : ℚ) (i : ℕ) :
    (integrate st dt).vertices.find? (fun w => w.id == i) =
      (st.mesh.vertices.find? (fun w => w.id == i)).map
        (integrateVertex st dt) := by
  unfold integrate
  simp only
  rw [List.find?_map]
  have hc : ((fun w : PaperVertex => w.id == i) ∘ integrateVertex st dt) =
      (fun w : PaperVertex => w.id == i) := by
    funext w
    simp [Function.comp, integrateVertex_id]
  rw [hc]

theorem integrate_pinned_frozen (st : SimState) (dt : ℚ) (i : ℕ)
    (v : PaperVertex)
    (hv : st.mesh.vertices.find? (fun w => w.id == i) = some v)
    (hp : v.pinned = true) :
    (integrate st dt).vertices.find? (fun w => w.id == i) = some v := by
  rw [integrate_find, hv]
  show some (integrateVertex st dt v) = some v
  rw [integrateVertex_pinned st dt v hp]

theorem initiateTearAt_keptFull (st : SimState) (j : ℕ) :
    VKept KeptFull st.mesh.vertices (initiateTearAt st j).mesh.vertices := by
  unfold initiateTearAt
  split
  · exact vKept_refl _ keptFull_refl _
  · split
    · exact vKept_refl _ keptFull_refl _
    · split
      · exact vKept_refl _ keptFull_refl _
      · exact updateVertex_keptFull _ j (fun v => { v with isTearTip := true })
          (fun _ => rfl) (fun w => ⟨rfl, rfl, rfl, rfl, rfl, fun hh => hh⟩)

/-! ## C2: pinned vertices are never moved by `step` -/

/-- C2: for every pinned vertex of the mesh and every call to `step(dt)` — in
any simulation state with the reachable-state freshness invariant, so for any
`dt` and any preceding grab interactions — the vertex's position and velocity
after the step equal their values before the step; the integrator skips
pinned vertices and no other phase of `step` writes positions or
velocities. -/
theorem C2_pinned_vertices_frozen (sq : ℚ → ℚ) (cfg : PaperConfig)
    (st : SimState) (dt : ℚ) (i : ℕ) (v : PaperVertex)
    (hfresh : VFresh st.mesh)
    (hv : findVertex st.mesh i = some v) (hp : v.pinned = true) :
    ∃ v2, findVertex (step sq cfg st dt).mesh i = some v2 ∧
      v2.position = v.position ∧ v2.velocity = v.velocity := by
  unfold step
  simp only
  set s2 := applyExternalForces cfg
    (computeInternalForces sq cfg { st with vertexForces := [] }) with hs2
  have hmesh : s2.mesh = st.mesh := by
    rw [hs2, applyExternalForces_mesh, computeInternalForces_mesh]
  have hfold := tipsFold_keptFull sq cfg dt s2.tearTips (s2, [])
    (by show VFresh s2.mesh; rw [hmesh]; exact hfresh)
  obtain ⟨hkept, hfresh3⟩ := hfold
  have hv2 : s2.mesh.vertices.find? (fun w => w.id == i) = some v := by
    rw [hmesh]
    exact hv
  obtain ⟨v2, hfind2, hkept2⟩ := hkept i v hv2
  have hp2 : v2.pinned = true := by
    rw [hkept2.2.2.2.2.1, hp]
  refine ⟨v2, ?_, hkept2.1, hkept2.2.1⟩
  show (integrate _ dt).vertices.find? (fun w => w.id == i) = some v2
  exact integrate_pinned_frozen _ dt i v2 hfind2 hp2

/-- Witness for C2: in the demo state, vertex 2 (top row, pinned by the
`v > 0.95` rule) keeps its position and velocity through a full `step`. -/
theorem C2_pinned_vertices_frozen_witness :
    ∃ v2, findVertex (step qSqrt demoCfg demoState (1 / 60)).mesh 2 = some v2 ∧
      v2.position = ((findVertex demoState.mesh 2).getD defaultVertex).position ∧
      v2.velocity = ((findVertex demoState.mesh 2).getD defaultVertex).velocity :=
  C2_pinned_vertices_frozen qSqrt demoCfg demoState (1 / 60) 2 _
    (by with_unfolding_all decide) (by with_unfolding_all decide)
    (by with_unfolding_all decide)

/-! ## C9: `isBoundary` is never cleared -/

/-- C9: no operation of the mesh manager or the tear simulation ever changes
a vertex's `isBoundary` flag from `true` to `false`: each of `rebuildEdges`,
`splitVertex`, `tearEdge`, `insertVertexOnEdge`, `step`, `startGrab`,
`updateGrab`, `endGrab` and `initiateTearAt` preserves `isBoundary = true`
of every existing vertex (vertex-creating operations assume the
reachable-state freshness invariant `VFresh`). -/
theorem C9_isBoundary_never_cleared :
    (∀ m i v, findVertex m i = some v → v.isBoundary = true →
      ∃ v2, findVertex (rebuildEdges m) i = some v2 ∧ v2.isBoundary = true) ∧
    (∀ m j tm i v, VFresh m → findVertex m i = some v → v.isBoundary = true →
      ∃ v2, findVertex (splitVertex m j tm).1 i = some v2 ∧
        v2.isBoundary = true) ∧
    (∀ m a b i v, VFresh m → findVertex m i = some v → v.isBoundary = true →
      ∃ v2, findVertex (tearEdge m a b) i = some v2 ∧
        v2.isBoundary = true) ∧
    (∀ m a b t i v, VFresh m → findVertex m i = some v → v.isBoundary = true →
      ∃ v2, findVertex (insertVertexOnEdge m a b t).1 i = some v2 ∧
        v2.isBoundary = true) ∧
    (∀ sq cfg st dt i v, VFresh st.mesh → findVertex st.mesh i = some v →
      v.isBoundary = true →
      ∃ v2, findVertex (step sq cfg st dt).mesh i = some v2 ∧
        v2.isBoundary = true) ∧
    (∀ sq cfg st uv i v, findVertex st.mesh i = some v → v.isBoundary = true →
      ∃ v2, findVertex (startGrab sq cfg st uv).mesh i = some v2 ∧
        v2.isBoundary = true) ∧
    (∀ sq cfg st tp i v, findVertex st.mesh i = some v → v.isBoundary = true →
      ∃ v2, findVertex (updateGrab sq cfg st tp).mesh i = some v2 ∧
        v2.isBoundary = true) ∧
    (∀ st i v, findVertex st.mesh i = some v → v.isBoundary = true →
      ∃ v2, findVertex (endGrab st).mesh i = some v2 ∧
        v2.isBoundary = true) ∧
    (∀ st j i v, findVertex st.mesh i = some v → v.isBoundary = true →
      ∃ v2, findVertex (initiateTearAt st j).mesh i = some v2 ∧
        v2.isBoundary = true) := by
  refine ⟨?_, ?_, ?_, ?_, ?_, ?_, ?_, ?_, ?_⟩
  · intro m i v hv hb
    obtain ⟨v2, h2, hk⟩ := rebuildEdges_keptFull m i v hv
    exact ⟨v2, h2, hk.2.2.2.2.2 hb⟩
  · intro m j tm i v hf hv hb
    obtain ⟨v2, h2, hk⟩ := splitVertex_keptFull m j tm hf i v hv
    exact ⟨v2, h2, hk.2.2.2.2.2 hb⟩
  · intro m a b i v hf hv hb
    obtain ⟨v2, h2, hk⟩ := tearEdge_keptFull m a b hf i v hv
    exact ⟨v2, h2, hk.2.2.2.2.2 hb⟩
  · intro m a b t i v hf hv hb
    obtain ⟨v2, h2, hk⟩ := insertVertexOnEdge_keptFull m a b t hf i v hv
    exact ⟨v2, h2, hk.2.2.2.2.2 hb⟩
  · intro sq cfg st dt i v hf hv hb
    unfold step
    simp only
    set s2 := applyExternalForces cfg
      (computeInternalForces sq cfg { st with vertexForces := [] }) with hs2
    have hmesh : s2.mesh = st.mesh := by
      rw [hs2, applyExternalForces_mesh, computeInternalForces_mesh]
    have hfold := tipsFold_keptFull sq cfg dt s2.tearTips (s2, [])
      (by show VFresh s2.mesh; rw [hmesh]; exact hf)
    obtain ⟨hkept, _⟩ := hfold
    have hv2 : s2.mesh.vertices.find? (fun w => w.id == i) = some v := by
      rw [hmesh]; exact hv
    obtain ⟨v2, hfind2, hkept2⟩ := hkept i v hv2
    obtain ⟨v3, hfind3, hkept3⟩ := integrate_keptFlags _ dt i v2 hfind2
    exact ⟨v3, hfind3, hkept3.2 (hkept2.2.2.2.2.2 hb)⟩
  · intro sq cfg st uv i v hv hb
    exact ⟨v, hv, hb⟩
  · intro sq cfg st tp i v hv hb
    unfold updateGrab
    split
    · exact ⟨v, hv, hb⟩
    · rename_i g hg
      unfold updateGrabApply
      split
      · obtain ⟨v2, h2, hk⟩ := initiateTearAt_keptFull
          { st with grabForce := grabSpringForce cfg st tp g } g i v hv
        exact ⟨v2, h2, hk.2.2.2.2.2 hb⟩
      · exact ⟨v, hv, hb⟩
  · intro st i v hv hb
    exact ⟨v, hv, hb⟩
  · intro st j i v hv hb
    obtain ⟨v2, h2, hk⟩ := initiateTearAt_keptFull st j i v hv
    exact ⟨v2, h2, hk.2.2.2.2.2 hb⟩

/-- Witness for C9: tearing the boundary edge (0, 1) of the demo mesh keeps
vertex 0 marked as boundary. -/
theorem C9_isBoundary_never_cleared_witness :
    ∃ v2, findVertex (tearEdge demoMesh 0 1) 0 = some v2 ∧
      v2.isBoundary = true :=
  C9_isBoundary_never_cleared.2.2.1 demoMesh 0 1 0
    ((findVertex demoMesh 0).getD defaultVertex)
    (by with_unfolding_all decide) (by with_unfolding_all decide)
    (by with_unfolding_all decide)

/-! ## C6: a stalled tear still resets the tip's accumulated energy

When the tip's energy exceeds the threshold but the best-aligned untorn
incident edge has alignment at most `0.3`, `propagateTear` indeed tears
nothing and leaves the tip in place — but `processTearTip` resets
`tip.energy` to 0 unconditionally after the `propagateTear` call, also on a
stall, contradicting the claim that the energy is reset only on an actual
tear. -/

theorem propagateTear_stall (sq : ℚ → ℚ) (st : SimState) (tip : TearTip)
    (dir : Vec2)
    (h : ∀ pa, bestTearCandidate sq st.mesh tip.vertexId
      ((findVertex st.mesh tip.vertexId).getD defaultVertex) dir = some pa →
      ¬ (3 / 10 < pa.2)) :
    propagateTear sq st tip dir = (st, tip) := by
  unfold propagateTear
  split
  · rename_i pa hpa
    rw [if_neg (h pa hpa)]
  · rfl

/-- C6 (amended): for every tear tip in a simulation step, if the tip's
accumulated energy exceeds the fracture threshold but the best-aligned
untorn edge incident to the tip has alignment with the computed tear
direction not exceeding `3/10`, then no edge is torn and the tip is not
relocated (the whole simulation state is returned unchanged), but the tip's
accumulated energy *is* reset to 0: the reset happens whenever the threshold
was exceeded, not only on an actual tear (see the counterexample). -/
theorem C6_stalled_tear_resets_energy (sq : ℚ → ℚ) (cfg : PaperConfig)
    (st : SimState) (tip : TearTip) (dt : ℚ) (vertex : PaperVertex)
    (hv : findVertex st.mesh tip.vertexId = some vertex)
    (hbnd : vertex.isBoundary = true)
    (hcl : ¬ ((clusterForces sq (gatherTipForces sq st tip vertex)).length < 2))
    (hthr : cfg.fractureThreshold <
      (tipAfterAccum tip (computeEnergyRelease
        ((clusterForces sq (gatherTipForces sq st tip vertex)).getD 0 default)
        ((clusterForces sq (gatherTipForces sq st tip vertex)).getD 1 default))
        dt).energy)
    (hstall : ∀ pa, bestTearCandidate sq st.mesh tip.vertexId
      ((findVertex st.mesh tip.vertexId).getD defaultVertex)
      (computeTearDirection sq cfg
        ((clusterForces sq (gatherTipForces sq st tip vertex)).getD 0 default)
        ((clusterForces sq (gatherTipForces sq st tip vertex)).getD 1 default)
        tip) = some pa → ¬ (3 / 10 < pa.2)) :
    processTearTip sq cfg st tip dt =
      (st, { tip with
               energy := 0,
               tearDirection := computeTearDirection sq cfg
                 ((clusterForces sq
                   (gatherTipForces sq st tip vertex)).getD 0 default)
                 ((clusterForces sq
                   (gatherTipForces sq st tip vertex)).getD 1 default) tip }) := by
  unfold processTearTip
  rw [hv]
  show (if vertex.isBoundary = false then (st, tip)
    else processTearTipCore sq cfg st tip dt
      (clusterForces sq (gatherTipForces sq st tip vertex))) = _
  rw [if_neg (by rw [hbnd]; simp)]
  unfold processTearTipCore
  rw [if_neg hcl]
  unfold processTearTipDecide
  rw [if_pos hthr]
  unfold processTearTipFire
  rw [propagateTear_stall sq st
    (tipAfterAccum tip (computeEnergyRelease
      ((clusterForces sq (gatherTipForces sq st tip vertex)).getD 0 default)
      ((clusterForces sq (gatherTipForces sq st tip vertex)).getD 1 default))
      dt)
    (computeTearDirection sq cfg
      ((clusterForces sq (gatherTipForces sq st tip vertex)).getD 0 default)
      ((clusterForces sq (gatherTipForces sq st tip vertex)).getD 1 default)
      tip)
    hstall]
  rfl

set_option maxRecDepth 200000 in
/-- Witness for C6 (amended) on the concrete stall state `stC6`. -/
theorem C6_stalled_tear_resets_energy_witness :
    processTearTip qSqrt demoCfg stC6 tipC6 1 =
      (stC6, { tipC6 with
                 energy := 0,
                 tearDirection := computeTearDirection qSqrt demoCfg
                   ((clusterForces qSqrt (gatherTipForces qSqrt stC6 tipC6
                     ((findVertex stC6.mesh tipC6.vertexId).getD
                       defaultVertex))).getD 0 default)
                   ((clusterForces qSqrt (gatherTipForces qSqrt stC6 tipC6
                     ((findVertex stC6.mesh tipC6.vertexId).getD
                       defaultVertex))).getD 1 default) tipC6 }) :=
  C6_stalled_tear_resets_energy qSqrt demoCfg stC6 tipC6 1
    ((findVertex stC6.mesh tipC6.vertexId).getD defaultVertex)
    (by with_unfolding_all decide) (by with_unfolding_all decide)
    (by with_unfolding_all decide) (by with_unfolding_all decide)
    (by
      intro pa hpa
      have h1 : bestTearCandidate qSqrt stC6.mesh tipC6.vertexId
          ((findVertex stC6.mesh tipC6.vertexId).getD defaultVertex)
          (computeTearDirection qSqrt demoCfg
            ((clusterForces qSqrt (gatherTipForces qSqrt stC6 tipC6
              ((findVertex stC6.mesh tipC6.vertexId).getD
                defaultVertex))).getD 0 default)
            ((clusterForces qSqrt (gatherTipForces qSqrt stC6 tipC6
              ((findVertex stC6.mesh tipC6.vertexId).getD
                defaultVertex))).getD 1 default) tipC6) =
          some ((0, 1), 7 / 25) := by with_unfolding_all decide
      rw [h1] at hpa
      cases hpa
      with_unfolding_all decide)

set_option maxRecDepth 200000 in
/-- Counterexample to C6 as stated: in the state `stC6` the threshold is
exceeded (accumulated energy `1973/250 > 1`), the best-aligned untorn edge
has alignment `7/25 ≤ 3/10` so the simulation state is returned entirely
unchanged (no edge torn, tip not relocated), and yet the tip's energy is
reset to 0 — not kept, as "reset only on an actual tear" would require.
All square roots reached in this evaluation have perfect-square arguments,
so `qSqrt` agrees with `Math.sqrt` throughout. -/
theorem C6_counterexample :
    (processTearTip qSqrt demoCfg stC6 tipC6 1).1 = stC6 ∧
    (processTearTip qSqrt demoCfg stC6 tipC6 1).2.vertexId = tipC6.vertexId ∧
    (processTearTip qSqrt demoCfg stC6 tipC6 1).2.energy = 0 ∧
    tipC6.energy = 10 ∧
    bestTearCandidate qSqrt stC6.mesh 0
      ((findVertex stC6.mesh 0).getD defaultVertex) ⟨0, 1⟩ =
      some ((0, 1), 7 / 25) ∧
    ¬ ((3 : ℚ) / 10 < 7 / 25) ∧
    demoCfg.fractureThreshold <
      (tipAfterAccum tipC6 (computeEnergyRelease
        ((clusterForces qSqrt (gatherTipForces qSqrt stC6 tipC6
          ((findVertex stC6.mesh 0).getD defaultVertex))).getD 0 default)
        ((clusterForces qSqrt (gatherTipForces qSqrt stC6 tipC6
          ((findVertex stC6.mesh 0).getD defaultVertex))).getD 1 default))
        1).energy := by
  with_unfolding_all decide

/-! ## Edge-map accounting: `rebuildEdges` stores, on each edge, exactly
the ids of the triangles that register the edge's key (for C5 and C1) -/

theorem edgeKey_eq_iff (x y a b : ℕ) :
    edgeKey x y = edgeKey a b ↔ (x = a ∧ y = b) ∨ (x = b ∧ y = a) := by
  unfold edgeKey
  rw [Prod.mk.injEq]
  omega

theorem triRegisters_iff (t : PaperTriangle) (k : ℕ × ℕ) :
    triRegisters t k = true ↔
      (edgeKey t.v0 t.v1 = k ∨ edgeKey t.v1 t.v2 = k ∨
       edgeKey t.v2 t.v0 = k) := by
  simp [triRegisters, Bool.or_eq_true, or_assoc]

theorem triRegisters_contains (t : PaperTriangle) (a b : ℕ)
    (h : triRegisters t (edgeKey a b) = true) :
    (a = t.v0 ∨ a = t.v1 ∨ a = t.v2) ∧ (b = t.v0 ∨ b = t.v1 ∨ b = t.v2) := by
  rcases (triRegisters_iff t _).1 h with h' | h' | h' <;>
    rw [edgeKey_eq_iff] at h' <;> constructor <;> omega

theorem mem_triKeys_iff (t : PaperTriangle) (k : ℕ × ℕ) :
    k ∈ [edgeKey t.v0 t.v1, edgeKey t.v1 t.v2, edgeKey t.v2 t.v0] ↔
      triRegisters t k = true := by
  rw [triRegisters_iff]
  simp only [List.mem_cons, List.mem_singleton, List.not_mem_nil, or_false]
  constructor
  · rintro (h | h | h)
    · exact Or.inl h.symm
    · exact Or.inr (Or.inl h.symm)
    · exact Or.inr (Or.inr h.symm)
  · rintro (h | h | h)
    · exact Or.inl h.symm
    · exact Or.inr (Or.inl h.symm)
    · exact Or.inr (Or.inr h.symm)

theorem RegFilterIds_append (P : List PaperTriangle) (t : PaperTriangle)
    (k : ℕ × ℕ) :
    RegFilterIds (P ++ [t]) k =
      RegFilterIds P k ++ (if triRegisters t k then [t.id] else []) := by
  unfold RegFilterIds
  rw [List.filter_append, List.map_append]
  cases h : triRegisters t k <;> simp [h]

theorem mem_RegFilterIds (P : List PaperTriangle) (k : ℕ × ℕ) (i : ℕ)
    (h : i ∈ RegFilterIds P k) : i ∈ P.map PaperTriangle.id := by
  unfold RegFilterIds at h
  rcases List.mem_map.1 h with ⟨t, ht, hti⟩
  exact hti ▸ List.mem_map_of_mem _ (List.mem_of_mem_filter ht)

theorem any_key_map_eq (es : List PaperEdge) (f : PaperEdge → PaperEdge)
    (hf : ∀ e, (f e).ev0 = e.ev0 ∧ (f e).ev1 = e.ev1) (k : ℕ × ℕ) :
    (es.map f).any (fun e => (e.ev0, e.ev1) == k) =
      es.any (fun e => (e.ev0, e.ev1) == k) := by
  induction es with
  | nil => rfl
  | cons e es ih =>
    rw [List.map_cons, List.any_cons, List.any_cons, ih, (hf e).1, (hf e).2]

theorem addEdgeList_mid (P : List PaperTriangle) (t : PaperTriangle)
    (ks : List (ℕ × ℕ)) (es : List PaperEdge) (nid a b : ℕ)
    (hk : edgeKey a b ∉ ks)
    (hfresh : t.id ∉ P.map PaperTriangle.id)
    (h : MidSpec P t ks es) :
    MidSpec P t (ks ++ [edgeKey a b]) (addEdgeList es nid a b t.id) := by
  obtain ⟨h1, h2⟩ := h
  unfold addEdgeList
  by_cases hc : es.any (fun e => (e.ev0, e.ev1) == edgeKey a b) = true
  · rw [if_pos hc]
    constructor
    · intro e' he'
      rcases List.mem_map.1 he' with ⟨e, he, heq⟩
      subst heq
      by_cases hke : ((e.ev0, e.ev1) == edgeKey a b) = true
      · have hkeq : (e.ev0, e.ev1) = edgeKey a b := beq_iff_eq.1 hke
        have h1e := h1 e he
        have hnot : (e.ev0, e.ev1) ∉ ks := by rw [hkeq]; exact hk
        rw [if_neg hnot, List.append_nil] at h1e
        have htid : t.id ∉ e.triangles := by
          rw [h1e]; intro hmem; exact hfresh (mem_RegFilterIds _ _ _ hmem)
        rw [if_pos hke, if_neg htid]
        show e.triangles ++ [t.id] =
          RegFilterIds P (e.ev0, e.ev1) ++
            (if (e.ev0, e.ev1) ∈ ks ++ [edgeKey a b] then [t.id] else [])
        rw [h1e, if_pos (by rw [hkeq]; exact List.mem_append_right _ (by simp))]
      · rw [if_neg hke]
        have hne : (e.ev0, e.ev1) ≠ edgeKey a b := by
          intro hh; rw [hh] at hke; simp at hke
        have h1e := h1 e he
        rw [h1e]
        by_cases hin : (e.ev0, e.ev1) ∈ ks
        · rw [if_pos hin, if_pos (List.mem_append_left _ hin)]
        · rw [if_neg hin, if_neg (by simp [List.mem_append, hin, hne])]
    · intro k' hk'
      have hf : ∀ e : PaperEdge,
          ((if ((e.ev0, e.ev1) == edgeKey a b) = true then
              (if t.id ∈ e.triangles then e
               else { e with triangles := e.triangles ++ [t.id] })
            else e).ev0 = e.ev0) ∧
          ((if ((e.ev0, e.ev1) == edgeKey a b) = true then
              (if t.id ∈ e.triangles then e
               else { e with triangles := e.triangles ++ [t.id] })
            else e).ev1 = e.ev1) := by
        intro e
        by_cases hke : ((e.ev0, e.ev1) == edgeKey a b) = true
        · rw [if_pos hke]
          by_cases ht : t.id ∈ e.triangles
          · rw [if_pos ht]; exact ⟨rfl, rfl⟩
          · rw [if_neg ht]; exact ⟨rfl, rfl⟩
        · rw [if_neg hke]; exact ⟨rfl, rfl⟩
      rw [any_key_map_eq es _ hf k'] at hk'
      obtain ⟨hrfi, hks⟩ := h2 k' hk'
      refine ⟨hrfi, ?_⟩
      intro hmem
      rcases List.mem_append.1 hmem with h' | h'
      · exact hks h'
      · rw [List.mem_singleton] at h'
        subst h'
        rw [hk'] at hc
        exact Bool.false_ne_true hc
  · rw [if_neg hc]
    rw [Bool.not_eq_true] at hc
    obtain ⟨hrfi0, _⟩ := h2 _ hc
    constructor
    · intro e' he'
      rcases List.mem_append.1 he' with he | he
      · have h1e := h1 e' he
        have hne : (e'.ev0, e'.ev1) ≠ edgeKey a b := by
          intro hh
          have hany : es.any (fun e => (e.ev0, e.ev1) == edgeKey a b) = true :=
            List.any_eq_true.2 ⟨e', he, by simp [hh]⟩
          rw [hc] at hany
          exact Bool.false_ne_true hany
        rw [h1e]
        by_cases hin : (e'.ev0, e'.ev1) ∈ ks
        · rw [if_pos hin, if_pos (List.mem_append_left _ hin)]
        · rw [if_neg hin, if_neg (by simp [List.mem_append, hin, hne])]
      · rw [List.mem_singleton] at he
        subst he
        show [t.id] = RegFilterIds P ((edgeKey a b).1, (edgeKey a b).2) ++
          (if ((edgeKey a b).1, (edgeKey a b).2) ∈ ks ++ [edgeKey a b]
           then [t.id] else [])
        rw [Prod.mk.eta, hrfi0,
          if_pos (List.mem_append_right _ (by simp)), List.nil_append]
    · intro k' hk'
      rw [List.any_append] at hk'
      have ha : es.any (fun e => (e.ev0, e.ev1) == k') = false :=
        (Bool.or_eq_false_iff.1 hk').1
      have hb := (Bool.or_eq_false_iff.1 hk').2
      obtain ⟨hrfi', hks'⟩ := h2 k' ha
      refine ⟨hrfi', ?_⟩
      intro hmem
      rcases List.mem_append.1 hmem with h' | h'
      · exact hks' h'
      · rw [List.mem_singleton] at h'
        subst h'
        simp [Prod.mk.eta] at hb

theorem addEdgeStep_mid (P : List PaperTriangle) (t : PaperTriangle)
    (ks : List (ℕ × ℕ)) (es : List PaperEdge) (nid a b : ℕ)
    (hk : edgeKey a b ∉ ks)
    (hfresh : t.id ∉ P.map PaperTriangle.id)
    (h : MidSpec P t ks es) :
    MidSpec P t (ks ++ [edgeKey a b]) (addEdgeStep es nid a b t.id).1 :=
  addEdgeList_mid P t ks es nid a b hk hfresh h

theorem addTriEdges_spec (P : List PaperTriangle) (es : List PaperEdge)
    (nid : ℕ) (t : PaperTriangle)
    (hd : t.v0 ≠ t.v1 ∧ t.v1 ≠ t.v2 ∧ t.v0 ≠ t.v2)
    (hfresh : t.id ∉ P.map PaperTriangle.id)
    (h : EdgesSpec P es) :
    EdgesSpec (P ++ [t]) (addTriEdges es nid t).1 := by
  obtain ⟨d1, d2, d3⟩ := hd
  have hne1 : edgeKey t.v1 t.v2 ≠ edgeKey t.v0 t.v1 := by
    rw [Ne, edgeKey_eq_iff]; omega
  have hne2 : edgeKey t.v2 t.v0 ≠ edgeKey t.v0 t.v1 := by
    rw [Ne, edgeKey_eq_iff]; omega
  have hne3 : edgeKey t.v2 t.v0 ≠ edgeKey t.v1 t.v2 := by
    rw [Ne, edgeKey_eq_iff]; omega
  have hmid0 : MidSpec P t [] es := by
    obtain ⟨a1, a2⟩ := h
    refine ⟨fun e he => ?_, fun k hk => ⟨a2 k hk, by simp⟩⟩
    rw [a1 e he, if_neg (List.not_mem_nil _), List.append_nil]
  have m1 := addEdgeStep_mid P t [] es nid t.v0 t.v1
    (List.not_mem_nil _) hfresh hmid0
  rw [List.nil_append] at m1
  have m2 := addEdgeStep_mid P t [edgeKey t.v0 t.v1]
    (addEdgeStep es nid t.v0 t.v1 t.id).1
    (addEdgeStep es nid t.v0 t.v1 t.id).2 t.v1 t.v2
    (by simp [hne1]) hfresh m1
  have m3 := addEdgeStep_mid P t
    ([edgeKey t.v0 t.v1] ++ [edgeKey t.v1 t.v2])
    (addEdgeStep (addEdgeStep es nid t.v0 t.v1 t.id).1
      (addEdgeStep es nid t.v0 t.v1 t.id).2 t.v1 t.v2 t.id).1
    (addEdgeStep (addEdgeStep es nid t.v0 t.v1 t.id).1
      (addEdgeStep es nid t.v0 t.v1 t.id).2 t.v1 t.v2 t.id).2 t.v2 t.v0
    (by simp [hne2, hne3]) hfresh m2
  obtain ⟨b1, b2⟩ := m3
  constructor
  · intro e he
    have he' := b1 e he
    rw [RegFilterIds_append]
    have hkeys : ((e.ev0, e.ev1) ∈
        [edgeKey t.v0 t.v1] ++ [edgeKey t.v1 t.v2] ++ [edgeKey t.v2 t.v0]) ↔
        triRegisters t (e.ev0, e.ev1) = true := by
      rw [← mem_triKeys_iff]
      simp [List.mem_append, or_assoc]
    rw [he']
    by_cases hr : triRegisters t (e.ev0, e.ev1) = true
    · rw [if_pos (hkeys.2 hr), if_pos hr]
    · rw [if_neg (fun hm => hr (hkeys.1 hm)), if_neg hr]
  · intro k hk
    obtain ⟨hrfi, hks⟩ := b2 k hk
    rw [RegFilterIds_append, hrfi]
    have : ¬ triRegisters t k = true := by
      intro hr
      exact hks (by
        have := (mem_triKeys_iff t k).2 hr
        simp only [List.mem_cons, List.mem_singleton, List.not_mem_nil,
          or_false] at this
        simp [List.mem_append, this])
    rw [if_neg this, List.nil_append]

theorem buildEdgeFold_spec (ts : List PaperTriangle) :
    ∀ (P : List PaperTriangle) (es : List PaperEdge) (nid : ℕ),
    (∀ t ∈ ts, t.v0 ≠ t.v1 ∧ t.v1 ≠ t.v2 ∧ t.v0 ≠ t.v2) →
    ((P ++ ts).map PaperTriangle.id).Nodup →
    EdgesSpec P es →
    EdgesSpec (P ++ ts) (buildEdgeFold ts (es, nid)).1 := by
  induction ts with
  | nil =>
    intro P es nid _ _ h
    rw [List.append_nil]
    exact h
  | cons t ts ih =>
    intro P es nid hd hnodup h
    have hfresh : t.id ∉ P.map PaperTriangle.id := by
      rw [List.map_append, List.nodup_append] at hnodup
      intro hmem
      exact hnodup.2.2 hmem (by simp)
    have hstep := addTriEdges_spec P es nid t (hd t (by simp)) hfresh h
    have hnodup' : (((P ++ [t]) ++ ts).map PaperTriangle.id).Nodup := by
      rw [List.append_assoc]
      exact hnodup
    have hmain := ih (P ++ [t]) (addTriEdges es nid t).1
      (addTriEdges es nid t).2
      (fun u hu => hd u (by simp [hu])) hnodup' hstep
    rw [List.append_assoc] at hmain
    exact hmain

theorem triCore_fields {u t : PaperTriangle} (h : triCore u = triCore t) :
    u.id = t.id ∧ u.v0 = t.v0 ∧ u.v1 = t.v1 ∧ u.v2 = t.v2 := by
  unfold triCore at h
  simpa [Prod.ext_iff] using h

theorem idsMap_of_core {us ts : List PaperTriangle}
    (h : us.map triCore = ts.map triCore) :
    us.map PaperTriangle.id = ts.map PaperTriangle.id := by
  have h1 : (us.map triCore).map Prod.fst = (ts.map triCore).map Prod.fst := by
    rw [h]
  rw [List.map_map, List.map_map] at h1
  exact h1

theorem DistinctL_of_core {us ts : List PaperTriangle}
    (h : us.map triCore = ts.map triCore) (hd : DistinctL ts) :
    DistinctL us := by
  intro u hu
  have : triCore u ∈ ts.map triCore := by
    rw [← h]; exact List.mem_map_of_mem _ hu
  rcases List.mem_map.1 this with ⟨t, ht, hc⟩
  obtain ⟨_, e0, e1, e2⟩ := triCore_fields hc.symm
  rw [e0, e1, e2]
  exact hd t ht

theorem FreshL_of_core {us ts : List PaperTriangle} {n : ℕ}
    (h : us.map triCore = ts.map triCore) (hf : FreshL ts n) :
    FreshL us n := by
  intro u hu
  have : triCore u ∈ ts.map triCore := by
    rw [← h]; exact List.mem_map_of_mem _ hu
  rcases List.mem_map.1 this with ⟨t, ht, hc⟩
  obtain ⟨_, e0, e1, e2⟩ := triCore_fields hc.symm
  rw [e0, e1, e2]
  exact hf t ht

theorem RegFilterIds_of_core {us ts : List PaperTriangle}
    (h : us.map triCore = ts.map triCore) (k : ℕ × ℕ) :
    RegFilterIds us k = RegFilterIds ts k := by
  induction us generalizing ts with
  | nil =>
    cases ts with
    | nil => rfl
    | cons t ts => simp at h
  | cons u us ih =>
    cases ts with
    | nil => simp at h
    | cons t ts =>
      rw [List.map_cons, List.map_cons] at h
      injection h with h1 h2
      obtain ⟨e0, e1, e2, e3⟩ := triCore_fields h1
      unfold RegFilterIds
      rw [List.filter_cons, List.filter_cons]
      have hreg : triRegisters u (k) = triRegisters t (k) := by
        unfold triRegisters
        rw [e1, e2, e3]
      rw [hreg]
      cases hr : triRegisters t k
      · rw [if_neg (by simp), if_neg (by simp)]
        exact ih h2
      · rw [if_pos rfl, if_pos rfl, List.map_cons, List.map_cons, e0]
        have hrec := ih h2
        unfold RegFilterIds at hrec
        rw [hrec]

theorem addNeighborOnce_core_pt (t : PaperTriangle) (a b : ℕ) :
    triCore (if (t.id == a) = true then
      (if b ∈ t.neighbors then t
       else { t with neighbors := t.neighbors ++ [b] })
      else t) = triCore t := by
  by_cases h : (t.id == a) = true
  · rw [if_pos h]
    by_cases h2 : b ∈ t.neighbors
    · rw [if_pos h2]
    · rw [if_neg h2]; rfl
  · rw [if_neg h]

theorem addNeighborOnce_core (ts : List PaperTriangle) (a b : ℕ) :
    (addNeighborOnce ts a b).map triCore = ts.map triCore := by
  unfold addNeighborOnce
  rw [List.map_map]
  apply List.map_congr_left
  intro t _
  exact addNeighborOnce_core_pt t a b

theorem rebuildNeighbors_core (es : List PaperEdge) :
    ∀ ts : List PaperTriangle,
      (rebuildNeighbors ts es).map triCore = ts.map triCore := by
  induction es with
  | nil => intro ts; rfl
  | cons e es ih =>
    intro ts
    have h1 : rebuildNeighbors ts (e :: es) =
        rebuildNeighbors (match e.triangles with
          | [t0, t1] => addNeighborOnce (addNeighborOnce ts t0 t1) t1 t0
          | _ => ts) es := rfl
    rw [h1, ih]
    split
    · rw [addNeighborOnce_core, addNeighborOnce_core]
    · rfl

theorem resetNeighbors_core (ts : List PaperTriangle) :
    (ts.map (fun t => { t with neighbors := ([] : List ℕ) })).map triCore =
      ts.map triCore := by
  rw [List.map_map]
  apply List.map_congr_left
  intro t _
  rfl

theorem rebuildEdges_triCore (m : PaperMesh) :
    (rebuildEdges m).triangles.map triCore = m.triangles.map triCore := by
  show (rebuildNeighbors _ _).map triCore = _
  rw [rebuildNeighbors_core, resetNeighbors_core]

theorem rebuildEdges_EdgesSpec (m : PaperMesh)
    (h1 : DistinctL m.triangles) (h2 : TriIdsNodup m) :
    EdgesSpec (rebuildEdges m).triangles (rebuildEdges m).edges := by
  have hcore0 :
      (m.triangles.map (fun t : PaperTriangle =>
        { t with neighbors := ([] : List ℕ) })).map triCore =
        m.triangles.map triCore := resetNeighbors_core m.triangles
  have hspec := buildEdgeFold_spec
    (m.triangles.map (fun t : PaperTriangle =>
      { t with neighbors := ([] : List ℕ) }))
    [] [] m.nextEdgeId
    (DistinctL_of_core hcore0 h1)
    (by rw [List.nil_append, idsMap_of_core hcore0]; exact h2)
    ⟨fun e he => absurd he (List.not_mem_nil e), fun k _ => rfl⟩
  rw [List.nil_append] at hspec
  obtain ⟨s1, s2⟩ := hspec
  have hcoreFinal : (rebuildEdges m).triangles.map triCore =
      (m.triangles.map (fun t : PaperTriangle =>
        { t with neighbors := ([] : List ℕ) })).map triCore := by
    rw [rebuildEdges_triCore, hcore0]
  constructor
  · intro e he
    have he2 : e ∈ (buildEdgeFold
        (m.triangles.map (fun t : PaperTriangle =>
          { t with neighbors := ([] : List ℕ) }))
        ([], m.nextEdgeId)).1.map
        (fun d : PaperEdge =>
          { d with isBoundary := d.triangles.length == 1 }) := he
    rcases List.mem_map.1 he2 with ⟨d, hd, hde⟩
    subst hde
    show d.triangles = RegFilterIds (rebuildEdges m).triangles (d.ev0, d.ev1)
    rw [RegFilterIds_of_core hcoreFinal]
    exact s1 d hd
  · intro k hk
    rw [RegFilterIds_of_core hcoreFinal]
    apply s2
    have hk2 : ((buildEdgeFold
        (m.triangles.map (fun t : PaperTriangle =>
          { t with neighbors := ([] : List ℕ) }))
        ([], m.nextEdgeId)).1.map
        (fun d : PaperEdge =>
          { d with isBoundary := d.triangles.length == 1 })).any
        (fun e => (e.ev0, e.ev1) == k) = false := hk
    rw [any_key_map_eq _
      (fun d : PaperEdge => { d with isBoundary := d.triangles.length == 1 })
      (fun e => ⟨rfl, rfl⟩) k] at hk2
    exact hk2

theorem rebuildEdges_edgesDerived (m : PaperMesh)
    (h1 : DistinctL m.triangles) (h2 : TriIdsNodup m) :
    EdgesDerived (rebuildEdges m) :=
  fun e he => (rebuildEdges_EdgesSpec m h1 h2).1 e he

theorem addEdgeList_nonempty {es : List PaperEdge} {nid a b tid : ℕ}
    (h : ∀ e ∈ es, e.triangles ≠ []) :
    ∀ e ∈ addEdgeList es nid a b tid, e.triangles ≠ [] := by
  intro e he
  rcases mem_addEdgeList he with ⟨d, hd, h1 | h1⟩ | h1
  · rw [h1]; exact h d hd
  · rw [h1]
    show d.triangles ++ [tid] ≠ []
    simp
  · rw [h1]
    show [tid] ≠ []
    simp

theorem buildEdgeFold_nonempty (ts : List PaperTriangle)
    (acc : List PaperEdge × ℕ)
    (h : ∀ e ∈ acc.1, e.triangles ≠ []) :
    ∀ e ∈ (buildEdgeFold ts acc).1, e.triangles ≠ [] := by
  induction ts generalizing acc with
  | nil => exact h
  | cons t ts ih =>
    intro e he
    refine ih (addTriEdges acc.1 acc.2 t) ?_ e he
    show ∀ e ∈ (addTriEdges acc.1 acc.2 t).1, e.triangles ≠ []
    unfold addTriEdges addEdgeStep
    exact addEdgeList_nonempty (addEdgeList_nonempty
      (addEdgeList_nonempty h))

theorem rebuildEdges_edge_nonempty (m : PaperMesh) :
    ∀ e ∈ (rebuildEdges m).edges, e.triangles ≠ [] := by
  intro e he
  have he2 : e ∈ (buildEdgeFold
      (m.triangles.map (fun t : PaperTriangle =>
        { t with neighbors := ([] : List ℕ) }))
      ([], m.nextEdgeId)).1.map
      (fun d : PaperEdge =>
        { d with isBoundary := d.triangles.length == 1 }) := he
  rcases List.mem_map.1 he2 with ⟨d, hd, hde⟩
  subst hde
  show d.triangles ≠ []
  exact buildEdgeFold_nonempty _ _
    (fun e h => absurd h (List.not_mem_nil e)) d hd

/-! ## Vertex/triangle-count preservation (for C5) -/

theorem markVertexBoundary_length (vs : List PaperVertex) (i : ℕ) :
    (markVertexBoundary vs i).length = vs.length := by
  unfold markVertexBoundary
  rw [List.length_map]

theorem markBoundaryVertices_length (es : List PaperEdge) :
    ∀ vs : List PaperVertex, (markBoundaryVertices vs es).length = vs.length := by
  induction es with
  | nil => intro vs; rfl
  | cons e es ih =>
    intro vs
    have h1 : markBoundaryVertices vs (e :: es) =
        markBoundaryVertices
          (if e.isBoundary then
            markVertexBoundary (markVertexBoundary vs e.ev0) e.ev1
          else vs) es := rfl
    rw [h1, ih]
    split
    · rw [markVertexBoundary_length, markVertexBoundary_length]
    · rfl

theorem length_of_core {us ts : List PaperTriangle}
    (h : us.map triCore = ts.map triCore) : us.length = ts.length := by
  have := congrArg List.length h
  rwa [List.length_map, List.length_map] at this

theorem rebuildEdges_vertexCount (m : PaperMesh) :
    vertexCount (rebuildEdges m) = vertexCount m := by
  show (markBoundaryVertices m.vertices _).length = m.vertices.length
  rw [markBoundaryVertices_length]

theorem rebuildEdges_triangleCount (m : PaperMesh) :
    triangleCount (rebuildEdges m) = triangleCount m := by
  have h := length_of_core (rebuildEdges_triCore m)
  exact h

theorem markTornEdge_vertexCount (m : PaperMesh) (a b : ℕ) :
    vertexCount (markTornEdge m a b) = vertexCount m := rfl

theorem markTornEdge_triangleCount (m : PaperMesh) (a b : ℕ) :
    triangleCount (markTornEdge m a b) = triangleCount m := rfl

theorem tearEdge_counts_no_split (m : PaperMesh) (a b : ℕ)
    (h : ∀ e, getEdge m a b = some e → e.isTorn = false →
      e.triangles.length ≠ 2) :
    vertexCount (tearEdge m a b) = vertexCount m ∧
      triangleCount (tearEdge m a b) = triangleCount m := by
  unfold tearEdge
  split
  · exact ⟨rfl, rfl⟩
  · rename_i e heq
    split
    · exact ⟨rfl, rfl⟩
    · rename_i htorn
      have hnt : e.isTorn = false := Bool.not_eq_true _ ▸ htorn
      have hlen : e.triangles.length ≠ 2 := h e heq hnt
      split
      · rename_i hbeq
        exact absurd (beq_iff_eq.1 hbeq) hlen
      · constructor
        · rw [rebuildEdges_vertexCount, markTornEdge_vertexCount]
        · rw [rebuildEdges_triangleCount, markTornEdge_triangleCount]

/-! ## Effect of `splitVertex`'s first-occurrence replacement on edge
registration (for C5) -/

theorem replaceFirst_removes (t : PaperTriangle) (x y : ℕ)
    (hd : t.v0 ≠ t.v1 ∧ t.v1 ≠ t.v2 ∧ t.v0 ≠ t.v2) (hxy : y ≠ x) :
    x ≠ (replaceFirstVertexRef t x y).v0 ∧
      x ≠ (replaceFirstVertexRef t x y).v1 ∧
      x ≠ (replaceFirstVertexRef t x y).v2 := by
  obtain ⟨d1, d2, d3⟩ := hd
  unfold replaceFirstVertexRef
  by_cases h0 : (t.v0 == x) = true
  · have e0 : t.v0 = x := beq_iff_eq.1 h0
    rw [if_pos h0]
    exact ⟨by show x ≠ y; omega, by show x ≠ t.v1; omega,
      by show x ≠ t.v2; omega⟩
  · have e0 : t.v0 ≠ x := by simpa using h0
    rw [if_neg h0]
    by_cases h1 : (t.v1 == x) = true
    · have e1 : t.v1 = x := beq_iff_eq.1 h1
      rw [if_pos h1]
      exact ⟨by show x ≠ t.v0; omega, by show x ≠ y; omega,
        by show x ≠ t.v2; omega⟩
    · have e1 : t.v1 ≠ x := by simpa using h1
      rw [if_neg h1]
      by_cases h2 : (t.v2 == x) = true
      · have e2 : t.v2 = x := beq_iff_eq.1 h2
        rw [if_pos h2]
        exact ⟨by show x ≠ t.v0; omega, by show x ≠ t.v1; omega,
          by show x ≠ y; omega⟩
      · have e2 : t.v2 ≠ x := by simpa using h2
        rw [if_neg h2]
        exact ⟨by omega, by omega, by omega⟩

theorem replaceFirst_no_register (t : PaperTriangle) (x y v0 v1 : ℕ)
    (hd : t.v0 ≠ t.v1 ∧ t.v1 ≠ t.v2 ∧ t.v0 ≠ t.v2)
    (hx : x = v0 ∨ x = v1) (hy0 : y ≠ v0) (hy1 : y ≠ v1) :
    triRegisters (replaceFirstVertexRef t x y) (edgeKey v0 v1) = false := by
  have hxy : y ≠ x := by omega
  have hrm := replaceFirst_removes t x y hd hxy
  cases hr : triRegisters (replaceFirstVertexRef t x y) (edgeKey v0 v1)
  · rfl
  · exfalso
    obtain ⟨c0, c1⟩ := triRegisters_contains _ v0 v1 hr
    obtain ⟨r0, r1, r2⟩ := hrm
    rcases hx with rfl | rfl
    · rcases c0 with h' | h' | h' <;> omega
    · rcases c1 with h' | h' | h' <;> omega

theorem replaceFirst_id (t : PaperTriangle) (x y : ℕ) :
    (replaceFirstVertexRef t x y).id = t.id := by
  unfold replaceFirstVertexRef
  split
  · rfl
  · split
    · rfl
    · split
      · rfl
      · rfl

theorem replaceFirst_verts (t : PaperTriangle) (x y : ℕ) :
    ((replaceFirstVertexRef t x y).v0 = t.v0 ∨
      (replaceFirstVertexRef t x y).v0 = y) ∧
    ((replaceFirstVertexRef t x y).v1 = t.v1 ∨
      (replaceFirstVertexRef t x y).v1 = y) ∧
    ((replaceFirstVertexRef t x y).v2 = t.v2 ∨
      (replaceFirstVertexRef t x y).v2 = y) := by
  unfold replaceFirstVertexRef
  split
  · exact ⟨Or.inr rfl, Or.inl rfl, Or.inl rfl⟩
  · split
    · exact ⟨Or.inl rfl, Or.inr rfl, Or.inl rfl⟩
    · split
      · exact ⟨Or.inl rfl, Or.inl rfl, Or.inr rfl⟩
      · exact ⟨Or.inl rfl, Or.inl rfl, Or.inl rfl⟩

theorem replaceFirst_distinct (t : PaperTriangle) (x y : ℕ)
    (hd : t.v0 ≠ t.v1 ∧ t.v1 ≠ t.v2 ∧ t.v0 ≠ t.v2)
    (hy : y ≠ t.v0 ∧ y ≠ t.v1 ∧ y ≠ t.v2) :
    (replaceFirstVertexRef t x y).v0 ≠ (replaceFirstVertexRef t x y).v1 ∧
      (replaceFirstVertexRef t x y).v1 ≠ (replaceFirstVertexRef t x y).v2 ∧
      (replaceFirstVertexRef t x y).v0 ≠ (replaceFirstVertexRef t x y).v2 := by
  obtain ⟨d1, d2, d3⟩ := hd
  obtain ⟨y0, y1, y2⟩ := hy
  unfold replaceFirstVertexRef
  split
  · exact ⟨by show y ≠ t.v1; omega, by show t.v1 ≠ t.v2; omega,
      by show y ≠ t.v2; omega⟩
  · split
    · exact ⟨by show t.v0 ≠ y; omega, by show y ≠ t.v2; omega,
        by show t.v0 ≠ t.v2; omega⟩
    · split
      · exact ⟨by show t.v0 ≠ t.v1; omega, by show t.v1 ≠ y; omega,
          by show t.v0 ≠ y; omega⟩
      · exact ⟨d1, d2, d3⟩

/-- The ids of the triangles still registering key `k` after the
triangle(s) with id `tid` have their first occurrence of `x` replaced by
`y`, provided the replacement destroys the registration: exactly the old
ids with `tid` removed. -/
theorem RegFilterIds_replace (l : List PaperTriangle) (tid x y : ℕ)
    (k : ℕ × ℕ)
    (h : ∀ t ∈ l, t.id = tid → triRegisters (replaceFirstVertexRef t x y) k
      = false) :
    RegFilterIds
      (l.map (fun t => if t.id == tid then replaceFirstVertexRef t x y else t))
      k = (RegFilterIds l k).filter (fun i => !(i == tid)) := by
  induction l with
  | nil => rfl
  | cons t ts ih =>
    have ih' := ih (fun u hu hid => h u (List.mem_cons_of_mem _ hu) hid)
    unfold RegFilterIds at ih' ⊢
    rw [List.map_cons, List.filter_cons, List.filter_cons]
    by_cases hid : t.id = tid
    · have hhead : (if (t.id == tid) = true then replaceFirstVertexRef t x y
          else t) = replaceFirstVertexRef t x y := if_pos (by simp [hid])
      rw [hhead]
      have hrf := h t (List.mem_cons_self t ts) hid
      rw [hrf, if_neg (by simp), ih']
      cases hr : triRegisters t k
      · rw [if_neg (by simp)]
      · rw [if_pos rfl, List.map_cons, List.filter_cons,
          if_neg (by simp [hid])]
    · have hhead : (if (t.id == tid) = true then replaceFirstVertexRef t x y
          else t) = t := if_neg (by simp [hid])
      rw [hhead]
      cases hr : triRegisters t k
      · rw [if_neg (by simp), if_neg (by simp)]
        exact ih'
      · rw [if_pos rfl, if_pos rfl, List.map_cons, List.map_cons,
          List.filter_cons, if_pos (by simp [hid]), ih']

theorem idsMap_replaceMap (l : List PaperTriangle) (tid x y : ℕ) :
    (l.map (fun t => if t.id == tid then replaceFirstVertexRef t x y else t)).map
      PaperTriangle.id = l.map PaperTriangle.id := by
  rw [List.map_map]
  apply List.map_congr_left
  intro t _
  show (if (t.id == tid) = true then replaceFirstVertexRef t x y else t).id
    = t.id
  split
  · exact replaceFirst_id t x y
  · rfl

theorem DistinctL_replaceMap (l : List PaperTriangle) (tid x y : ℕ)
    (hd : DistinctL l) (hy : ∀ t ∈ l, y ≠ t.v0 ∧ y ≠ t.v1 ∧ y ≠ t.v2) :
    DistinctL (l.map
      (fun t => if t.id == tid then replaceFirstVertexRef t x y else t)) := by
  intro u hu
  rcases List.mem_map.1 hu with ⟨t, ht, hut⟩
  subst hut
  show (if (t.id == tid) = true then replaceFirstVertexRef t x y else t).v0
      ≠ _ ∧ _
  split
  · exact replaceFirst_distinct t x y (hd t ht) (hy t ht)
  · exact hd t ht

theorem FreshL_replaceMap (l : List PaperTriangle) (tid x y n : ℕ)
    (hf : FreshL l n) (hyn : y < n) :
    FreshL (l.map
      (fun t => if t.id == tid then replaceFirstVertexRef t x y else t)) n := by
  intro u hu
  rcases List.mem_map.1 hu with ⟨t, ht, hut⟩
  subst hut
  show (if (t.id == tid) = true then replaceFirstVertexRef t x y else t).v0
      < n ∧ _
  split
  · obtain ⟨f0, f1, f2⟩ := hf t ht
    obtain ⟨w0, w1, w2⟩ := replaceFirst_verts t x y
    refine ⟨?_, ?_, ?_⟩
    · rcases w0 with h' | h' <;> omega
    · rcases w1 with h' | h' <;> omega
    · rcases w2 with h' | h' <;> omega
  · exact hf t ht

theorem FreshL_mono {ts : List PaperTriangle} {n n2 : ℕ}
    (h : FreshL ts n) (hle : n ≤ n2) : FreshL ts n2 := by
  intro t ht
  obtain ⟨f0, f1, f2⟩ := h t ht
  exact ⟨by omega, by omega, by omega⟩

theorem splitVertex_core (m : PaperMesh) (i tid : ℕ) :
    (splitVertex m i [tid]).1.triangles.map triCore =
      (m.triangles.map (fun t => if t.id == tid then
        replaceFirstVertexRef t i m.nextVertexId else t)).map triCore :=
  rebuildEdges_triCore _

theorem splitVertex_distinct (m : PaperMesh) (i tid : ℕ)
    (hD : DistinctL m.triangles) (hF : FreshL m.triangles m.nextVertexId) :
    DistinctL (splitVertex m i [tid]).1.triangles :=
  DistinctL_of_core (splitVertex_core m i tid)
    (DistinctL_replaceMap _ _ _ _ hD (fun t ht => by
      obtain ⟨f0, f1, f2⟩ := hF t ht
      exact ⟨by omega, by omega, by omega⟩))

theorem splitVertex_freshL (m : PaperMesh) (i tid : ℕ)
    (hF : FreshL m.triangles m.nextVertexId) :
    FreshL (splitVertex m i [tid]).1.triangles
      ((splitVertex m i [tid]).1.nextVertexId) := by
  have h1 : (splitVertex m i [tid]).1.nextVertexId = m.nextVertexId + 1 := rfl
  rw [h1]
  exact FreshL_of_core (splitVertex_core m i tid)
    (FreshL_replaceMap _ _ _ _ _ (FreshL_mono hF (by omega)) (by omega))

theorem splitVertex_idsMap (m : PaperMesh) (i tid : ℕ) :
    (splitVertex m i [tid]).1.triangles.map PaperTriangle.id =
      m.triangles.map PaperTriangle.id := by
  rw [idsMap_of_core (splitVertex_core m i tid), idsMap_replaceMap]

theorem tearEdgeSplitBranch_distinct (m1 : PaperMesh) (v0 v1 B : ℕ)
    (hD : DistinctL m1.triangles)
    (hF : FreshL m1.triangles m1.nextVertexId) :
    DistinctL (tearEdgeSplitBranch m1 v0 v1 B).triangles := by
  show DistinctL (splitVertex (splitVertex m1 v0 [B]).1 v1 [B]).1.triangles
  exact splitVertex_distinct _ _ _ (splitVertex_distinct _ _ _ hD hF)
    (splitVertex_freshL _ _ _ hF)

theorem tearEdgeSplitBranch_idsMap (m1 : PaperMesh) (v0 v1 B : ℕ) :
    (tearEdgeSplitBranch m1 v0 v1 B).triangles.map PaperTriangle.id =
      m1.triangles.map PaperTriangle.id := by
  show (splitVertex (splitVertex m1 v0 [B]).1 v1 [B]).1.triangles.map
    PaperTriangle.id = _
  rw [splitVertex_idsMap, splitVertex_idsMap]

theorem tearEdgeSplitBranch_RFI (m1 : PaperMesh) (v0 v1 B : ℕ)
    (hD : DistinctL m1.triangles)
    (hF : FreshL m1.triangles m1.nextVertexId)
    (hv0 : v0 < m1.nextVertexId) (hv1 : v1 < m1.nextVertexId) :
    RegFilterIds (tearEdgeSplitBranch m1 v0 v1 B).triangles (edgeKey v0 v1) =
      ((RegFilterIds m1.triangles (edgeKey v0 v1)).filter
        (fun i => !(i == B))).filter (fun i => !(i == B)) := by
  have hs0D : DistinctL (splitVertex m1 v0 [B]).1.triangles :=
    splitVertex_distinct _ _ _ hD hF
  have h1 : ∀ t ∈ m1.triangles, t.id = B →
      triRegisters (replaceFirstVertexRef t v0 m1.nextVertexId)
        (edgeKey v0 v1) = false :=
    fun t ht _ => replaceFirst_no_register t v0 m1.nextVertexId v0 v1
      (hD t ht) (Or.inl rfl) (by omega) (by omega)
  have hs0n : (splitVertex m1 v0 [B]).1.nextVertexId = m1.nextVertexId + 1 :=
    rfl
  have h2 : ∀ t ∈ (splitVertex m1 v0 [B]).1.triangles, t.id = B →
      triRegisters
        (replaceFirstVertexRef t v1 ((splitVertex m1 v0 [B]).1.nextVertexId))
        (edgeKey v0 v1) = false :=
    fun t ht _ => replaceFirst_no_register t v1 _ v0 v1
      (hs0D t ht) (Or.inr rfl) (by rw [hs0n]; omega) (by rw [hs0n]; omega)
  show RegFilterIds
      (splitVertex (splitVertex m1 v0 [B]).1 v1 [B]).1.triangles
      (edgeKey v0 v1) = _
  rw [RegFilterIds_of_core (splitVertex_core _ _ _),
    RegFilterIds_replace _ _ _ _ _ h2,
    RegFilterIds_of_core (splitVertex_core _ _ _),
    RegFilterIds_replace _ _ _ _ _ h1]

/-! ## C5: tearing an edge twice -/

/-- C5: for every pair of vertex ids `(v0, v1)` of a mesh satisfying the
reachable-state invariants (pairwise-distinct triangle vertices, distinct
triangle ids, derived edge adjacency, vertex references below
`nextVertexId`), calling `tearEdge v0 v1` a second time after a first call
that tore the edge (the edge existed and was not yet torn) leaves the
vertex count and the triangle count unchanged; and `tearEdge` on a
nonexistent edge returns the mesh unchanged. -/
theorem C5_tear_idempotent (m : PaperMesh) (v0 v1 : ℕ) (e : PaperEdge)
    (hD : DistinctL m.triangles) (hN : TriIdsNodup m) (hE : EdgesDerived m)
    (hF : FreshL m.triangles m.nextVertexId)
    (hsome : getEdge m v0 v1 = some e) (ht : e.isTorn = false) :
    (vertexCount (tearEdge (tearEdge m v0 v1) v0 v1)
        = vertexCount (tearEdge m v0 v1) ∧
      triangleCount (tearEdge (tearEdge m v0 v1) v0 v1)
        = triangleCount (tearEdge m v0 v1)) ∧
      ∀ (m2 : PaperMesh) (w0 w1 : ℕ), getEdge m2 w0 w1 = none →
        tearEdge m2 w0 w1 = m2 := by
  constructor
  · have hsome' : m.edges.find?
        (fun d => (d.ev0, d.ev1) == edgeKey v0 v1) = some e := hsome
    have hp := List.find?_some hsome'
    have hkey : (e.ev0, e.ev1) = edgeKey v0 v1 := beq_iff_eq.1 hp
    have hmem : e ∈ m.edges := List.mem_of_find?_eq_some hsome'
    have hEe : e.triangles = RegFilterIds m.triangles (edgeKey v0 v1) := by
      have h0 := hE e hmem
      rw [hkey] at h0
      exact h0
    have hform : tearEdge m v0 v1 =
        rebuildEdges (if e.triangles.length == 2 then
          tearEdgeSplitBranch (markTornEdge m v0 v1) v0 v1
            (e.triangles.getD 1 0)
        else markTornEdge m v0 v1) := by
      unfold tearEdge
      split
      · rename_i hnone
        rw [hnone] at hsome
        exact Option.noConfusion hsome
      · rename_i e2 heq
        rw [heq] at hsome
        injection hsome with hee
        subst hee
        split
        · rename_i ht2
          rw [ht] at ht2
          exact Bool.noConfusion ht2
        · rfl
    rw [hform]
    apply tearEdge_counts_no_split
    intro e2 hsome2 ht2
    by_cases hlen2 : (e.triangles.length == 2) = true
    · rw [if_pos hlen2] at hsome2
      have hlen : e.triangles.length = 2 := beq_iff_eq.1 hlen2
      obtain ⟨A, B0, hAB⟩ := List.length_eq_two.1 hlen
      have hgetD : e.triangles.getD 1 0 = B0 := by rw [hAB]; rfl
      rw [hgetD] at hsome2
      have hnd : e.triangles.Nodup := by
        rw [hEe]
        exact List.Nodup.sublist ((List.filter_sublist _).map _) hN
      have hABne : A ≠ B0 := by
        rw [hAB] at hnd
        simp at hnd
        exact hnd
      have hreg : ∃ t ∈ m.triangles,
          triRegisters t (edgeKey v0 v1) = true := by
        have hne2 : (m.triangles.filter
            (fun t => triRegisters t (edgeKey v0 v1))) ≠ [] := by
          intro hnil
          have hcon : e.triangles = ([] : List ℕ) := by
            rw [hEe]
            unfold RegFilterIds
            rw [hnil]
            rfl
          rw [hAB] at hcon
          exact List.noConfusion hcon
        obtain ⟨t, htm⟩ := List.exists_mem_of_ne_nil _ hne2
        exact ⟨t, (List.mem_filter.1 htm).1, (List.mem_filter.1 htm).2⟩
      obtain ⟨t0, ht0m, ht0r⟩ := hreg
      obtain ⟨c0, c1⟩ := triRegisters_contains t0 v0 v1 ht0r
      obtain ⟨f0, f1, f2⟩ := hF t0 ht0m
      have hv0 : v0 < m.nextVertexId := by rcases c0 with h' | h' | h' <;> omega
      have hv1 : v1 < m.nextVertexId := by rcases c1 with h' | h' | h' <;> omega
      have hD1 : DistinctL (markTornEdge m v0 v1).triangles := hD
      have hF1 : FreshL (markTornEdge m v0 v1).triangles
          (markTornEdge m v0 v1).nextVertexId := hF
      have hN2 : TriIdsNodup (tearEdgeSplitBranch (markTornEdge m v0 v1)
          v0 v1 B0) := by
        show ((tearEdgeSplitBranch (markTornEdge m v0 v1)
          v0 v1 B0).triangles.map PaperTriangle.id).Nodup
        rw [tearEdgeSplitBranch_idsMap]
        exact hN
      have hE2 : EdgesDerived (rebuildEdges (tearEdgeSplitBranch
          (markTornEdge m v0 v1) v0 v1 B0)) :=
        rebuildEdges_edgesDerived _
          (tearEdgeSplitBranch_distinct _ _ _ _ hD1 hF1) hN2
      have hsome2' : (rebuildEdges (tearEdgeSplitBranch (markTornEdge m v0 v1)
          v0 v1 B0)).edges.find?
          (fun d => (d.ev0, d.ev1) == edgeKey v0 v1) = some e2 := hsome2
      have hp2 := List.find?_some hsome2'
      have hkey2 : (e2.ev0, e2.ev1) = edgeKey v0 v1 := beq_iff_eq.1 hp2
      have hmem2 := List.mem_of_find?_eq_some hsome2'
      have h3 := hE2 e2 hmem2
      rw [hkey2] at h3
      have h4 : e2.triangles = RegFilterIds (tearEdgeSplitBranch
          (markTornEdge m v0 v1) v0 v1 B0).triangles (edgeKey v0 v1) := by
        rw [← RegFilterIds_of_core (rebuildEdges_triCore _)]
        exact h3
      rw [tearEdgeSplitBranch_RFI _ _ _ _ hD1 hF1 hv0 hv1] at h4
      have h5 : RegFilterIds (markTornEdge m v0 v1).triangles
          (edgeKey v0 v1) = [A, B0] := by
        rw [← hAB]
        exact hEe.symm
      rw [h5] at h4
      have h6 : (([A, B0].filter (fun i => !(i == B0))).filter
          (fun i => !(i == B0))) = [A] := by
        simp [hABne]
      rw [h6] at h4
      rw [h4]
      simp
    · rw [if_neg hlen2] at hsome2
      have hE1 : EdgesDerived (rebuildEdges (markTornEdge m v0 v1)) :=
        rebuildEdges_edgesDerived _ hD hN
      have hsome2' : (rebuildEdges (markTornEdge m v0 v1)).edges.find?
          (fun d => (d.ev0, d.ev1) == edgeKey v0 v1) = some e2 := hsome2
      have hp2 := List.find?_some hsome2'
      have hkey2 : (e2.ev0, e2.ev1) = edgeKey v0 v1 := beq_iff_eq.1 hp2
      have hmem2 := List.mem_of_find?_eq_some hsome2'
      have h3 := hE1 e2 hmem2
      rw [hkey2] at h3
      have h4 : e2.triangles =
          RegFilterIds (markTornEdge m v0 v1).triangles (edgeKey v0 v1) := by
        rw [← RegFilterIds_of_core (rebuildEdges_triCore _)]
        exact h3
      have h5 : e2.triangles = e.triangles := by
        rw [hEe]
        exact h4
      rw [h5]
      simpa using hlen2
  · intro m2 w0 w1 hnone
    unfold tearEdge
    rw [hnone]

set_option maxRecDepth 200000 in
/-- Witness for C5: the interior diagonal edge (1,2) of the demonstration
mesh satisfies all hypotheses, and the second tear leaves both counts
unchanged. -/
theorem C5_tear_idempotent_witness :
    getEdge demoMesh 1 2 = some ((getEdge demoMesh 1 2).getD default) ∧
    ((getEdge demoMesh 1 2).getD default).isTorn = false ∧
    (vertexCount (tearEdge (tearEdge demoMesh 1 2) 1 2)
        = vertexCount (tearEdge demoMesh 1 2) ∧
      triangleCount (tearEdge (tearEdge demoMesh 1 2) 1 2)
        = triangleCount (tearEdge demoMesh 1 2)) :=
  ⟨by with_unfolding_all decide, by with_unfolding_all decide,
    (C5_tear_idempotent demoMesh 1 2 ((getEdge demoMesh 1 2).getD default)
      (by with_unfolding_all decide) (by with_unfolding_all decide)
      (by with_unfolding_all decide) (by with_unfolding_all decide)
      (by with_unfolding_all decide) (by with_unfolding_all decide)).1⟩

/-! ## The construction fold of `buildInitialMesh` (for C1) -/

theorem addTriangle_triangles (m : PaperMesh) (a b c : ℕ) :
    ∃ r : ℚ, (addTriangle m a b c).1.triangles =
      m.triangles ++ [{ id := m.nextTriangleId, v0 := a, v1 := b, v2 := c,
                        restArea := r, neighbors := [] }] := ⟨_, rfl⟩

theorem addTriangle_nextTid (m : PaperMesh) (a b c : ℕ) :
    (addTriangle m a b c).1.nextTriangleId = m.nextTriangleId + 1 := rfl

theorem addCellTriangles_eq (cols : ℕ) (m : PaperMesh) (ji : ℕ × ℕ) :
    addCellTriangles cols m ji =
      (addTriangle (addTriangle m (gridIndex cols ji.1 ji.2)
        (gridIndex cols ji.1 (ji.2 + 1)) (gridIndex cols (ji.1 + 1) ji.2)).1
        (gridIndex cols ji.1 (ji.2 + 1)) (gridIndex cols (ji.1 + 1) (ji.2 + 1))
        (gridIndex cols (ji.1 + 1) ji.2)).1 := rfl

theorem mem_addTriangle (m : PaperMesh) (a b c : ℕ) (t : PaperTriangle)
    (ht : t ∈ (addTriangle m a b c).1.triangles) :
    t ∈ m.triangles ∨
      (t.v0 = a ∧ t.v1 = b ∧ t.v2 = c ∧ t.id = m.nextTriangleId) := by
  obtain ⟨r, hr⟩ := addTriangle_triangles m a b c
  rw [hr] at ht
  rcases List.mem_append.1 ht with h | h
  · exact Or.inl h
  · rw [List.mem_singleton] at h
    subst h
    exact Or.inr ⟨rfl, rfl, rfl, rfl⟩

theorem addTriangle_length (m : PaperMesh) (a b c : ℕ) :
    (addTriangle m a b c).1.triangles.length = m.triangles.length + 1 := by
  obtain ⟨r, hr⟩ := addTriangle_triangles m a b c
  rw [hr, List.length_append]
  rfl

theorem addTriangle_idsMap (m : PaperMesh) (a b c : ℕ) :
    (addTriangle m a b c).1.triangles.map PaperTriangle.id =
      m.triangles.map PaperTriangle.id ++ [m.nextTriangleId] := by
  obtain ⟨r, hr⟩ := addTriangle_triangles m a b c
  rw [hr, List.map_append]
  rfl

theorem addCellTriangles_length (cols : ℕ) (m : PaperMesh) (ji : ℕ × ℕ) :
    (addCellTriangles cols m ji).triangles.length = m.triangles.length + 2 := by
  rw [addCellTriangles_eq, addTriangle_length, addTriangle_length]

theorem fold_cells_length (cols : ℕ) (L : List (ℕ × ℕ)) :
    ∀ m : PaperMesh, ((L.foldl (addCellTriangles cols) m).triangles).length =
      m.triangles.length + 2 * L.length := by
  induction L with
  | nil => intro m; simp
  | cons ji L ih =>
    intro m
    rw [List.foldl_cons, ih, addCellTriangles_length, List.length_cons]
    ring

theorem mem_addCellTriangles (cols : ℕ) (m : PaperMesh) (ji : ℕ × ℕ)
    (t : PaperTriangle) (ht : t ∈ (addCellTriangles cols m ji).triangles) :
    t ∈ m.triangles ∨
      (t.v0 = gridIndex cols ji.1 ji.2 ∧
        t.v1 = gridIndex cols ji.1 (ji.2 + 1) ∧
        t.v2 = gridIndex cols (ji.1 + 1) ji.2) ∨
      (t.v0 = gridIndex cols ji.1 (ji.2 + 1) ∧
        t.v1 = gridIndex cols (ji.1 + 1) (ji.2 + 1) ∧
        t.v2 = gridIndex cols (ji.1 + 1) ji.2) := by
  rw [addCellTriangles_eq] at ht
  rcases mem_addTriangle _ _ _ _ _ ht with h | h
  · rcases mem_addTriangle _ _ _ _ _ h with h2 | h2
    · exact Or.inl h2
    · exact Or.inr (Or.inl ⟨h2.1, h2.2.1, h2.2.2.1⟩)
  · exact Or.inr (Or.inr ⟨h.1, h.2.1, h.2.2.1⟩)

theorem fold_cells_mem (cols : ℕ) (L : List (ℕ × ℕ)) :
    ∀ (m : PaperMesh) (t : PaperTriangle),
      t ∈ (L.foldl (addCellTriangles cols) m).triangles →
      t ∈ m.triangles ∨ ∃ ji ∈ L,
        ((t.v0 = gridIndex cols ji.1 ji.2 ∧
          t.v1 = gridIndex cols ji.1 (ji.2 + 1) ∧
          t.v2 = gridIndex cols (ji.1 + 1) ji.2) ∨
         (t.v0 = gridIndex cols ji.1 (ji.2 + 1) ∧
          t.v1 = gridIndex cols (ji.1 + 1) (ji.2 + 1) ∧
          t.v2 = gridIndex cols (ji.1 + 1) ji.2)) := by
  induction L with
  | nil => intro m t ht; exact Or.inl ht
  | cons ji L ih =>
    intro m t ht
    rw [List.foldl_cons] at ht
    rcases ih (addCellTriangles cols m ji) t ht with h | ⟨ji2, hji2, hc⟩
    · rcases mem_addCellTriangles cols m ji t h with h2 | h2 | h2
      · exact Or.inl h2
      · exact Or.inr ⟨ji, List.mem_cons_self _ _, Or.inl h2⟩
      · exact Or.inr ⟨ji, List.mem_cons_self _ _, Or.inr h2⟩
    · exact Or.inr ⟨ji2, List.mem_cons_of_mem _ hji2, hc⟩

theorem addTriangle_nodup (m : PaperMesh) (a b c : ℕ)
    (hb : ∀ t ∈ m.triangles, t.id < m.nextTriangleId)
    (hn : (m.triangles.map PaperTriangle.id).Nodup) :
    (∀ t ∈ (addTriangle m a b c).1.triangles,
        t.id < (addTriangle m a b c).1.nextTriangleId) ∧
      ((addTriangle m a b c).1.triangles.map PaperTriangle.id).Nodup := by
  constructor
  · intro t ht
    rw [addTriangle_nextTid]
    rcases mem_addTriangle m a b c t ht with h | h
    · have := hb t h; omega
    · rw [h.2.2.2]; omega
  · rw [addTriangle_idsMap]
    rw [List.nodup_append]
    refine ⟨hn, by simp, ?_⟩
    intro x hx hx2
    rw [List.mem_singleton] at hx2
    subst hx2
    rcases List.mem_map.1 hx with ⟨t, htm, hid⟩
    have := hb t htm
    omega

theorem fold_cells_nodup (cols : ℕ) (L : List (ℕ × ℕ)) :
    ∀ m : PaperMesh,
      (∀ t ∈ m.triangles, t.id < m.nextTriangleId) →
      (m.triangles.map PaperTriangle.id).Nodup →
      (∀ t ∈ (L.foldl (addCellTriangles cols) m).triangles,
          t.id < (L.foldl (addCellTriangles cols) m).nextTriangleId) ∧
        ((L.foldl (addCellTriangles cols) m).triangles.map
          PaperTriangle.id).Nodup := by
  induction L with
  | nil => intro m hb hn; exact ⟨hb, hn⟩
  | cons ji L ih =>
    intro m hb hn
    rw [List.foldl_cons]
    have hstep1 := addTriangle_nodup m (gridIndex cols ji.1 ji.2)
      (gridIndex cols ji.1 (ji.2 + 1)) (gridIndex cols (ji.1 + 1) ji.2) hb hn
    have hstep2 := addTriangle_nodup _ (gridIndex cols ji.1 (ji.2 + 1))
      (gridIndex cols (ji.1 + 1) (ji.2 + 1)) (gridIndex cols (ji.1 + 1) ji.2)
      hstep1.1 hstep1.2
    rw [← addCellTriangles_eq] at hstep2
    exact ih (addCellTriangles cols m ji) hstep2.1 hstep2.2

theorem gridIndex_right (cols j i : ℕ) :
    gridIndex cols j (i + 1) = gridIndex cols j i + 1 := by
  unfold gridIndex; ring

theorem gridIndex_up (cols j i : ℕ) :
    gridIndex cols (j + 1) i = gridIndex cols j i + (cols + 1) := by
  unfold gridIndex; ring

theorem gridIndex_diag (cols j i : ℕ) :
    gridIndex cols (j + 1) (i + 1) = gridIndex cols j i + (cols + 1) + 1 := by
  unfold gridIndex; ring

theorem regT1_iff (C x p q : ℕ) (hC : 1 ≤ C) (t : PaperTriangle)
    (h0 : t.v0 = x) (h1 : t.v1 = x + 1) (h2 : t.v2 = x + C) :
    (triRegisters t (p, q) = true) ↔
      ((p = x ∧ q = x + 1) ∨ (p = x + 1 ∧ q = x + C) ∨
        (p = x ∧ q = x + C)) := by
  unfold triRegisters
  rw [h0, h1, h2]
  simp only [Bool.or_eq_true, beq_iff_eq]
  unfold edgeKey
  rw [Prod.mk.injEq, Prod.mk.injEq, Prod.mk.injEq]
  omega

theorem regT2_iff (C x p q : ℕ) (hC : 1 ≤ C) (t : PaperTriangle)
    (h0 : t.v0 = x + 1) (h1 : t.v1 = x + C + 1) (h2 : t.v2 = x + C) :
    (triRegisters t (p, q) = true) ↔
      ((p = x + 1 ∧ q = x + C + 1) ∨ (p = x + C ∧ q = x + C + 1) ∨
        (p = x + 1 ∧ q = x + C)) := by
  unfold triRegisters
  rw [h0, h1, h2]
  simp only [Bool.or_eq_true, beq_iff_eq]
  unfold edgeKey
  rw [Prod.mk.injEq, Prod.mk.injEq, Prod.mk.injEq]
  omega

theorem countIf_eq_of_iff {b : Bool} {P : Prop} [Decidable P]
    (h : b = true ↔ P) :
    (if b then (1 : ℕ) else 0) = (if P then (1 : ℕ) else 0) := by
  by_cases hb : b = true
  · rw [if_pos hb, if_pos (h.1 hb)]
  · rw [if_neg hb, if_neg (fun hp => hb (h.2 hp))]

theorem countP_append_singleton {α : Type} (l : List α) (x : α)
    (pr : α → Bool) :
    (l ++ [x]).countP pr = l.countP pr + (if pr x then 1 else 0) := by
  rw [List.countP_append, List.countP_cons, List.countP_nil]
  omega

theorem addCellTriangles_countP (cols : ℕ) (m : PaperMesh) (ji : ℕ × ℕ)
    (p q : ℕ) (hcols : 1 ≤ cols) :
    (addCellTriangles cols m ji).triangles.countP
        (fun t => triRegisters t (p, q)) =
      m.triangles.countP (fun t => triRegisters t (p, q)) +
        wCell (cols + 1) p q (gridIndex cols ji.1 ji.2) := by
  obtain ⟨r1, h1⟩ := addTriangle_triangles m (gridIndex cols ji.1 ji.2)
    (gridIndex cols ji.1 (ji.2 + 1)) (gridIndex cols (ji.1 + 1) ji.2)
  obtain ⟨r2, h2⟩ := addTriangle_triangles
    (addTriangle m (gridIndex cols ji.1 ji.2)
      (gridIndex cols ji.1 (ji.2 + 1)) (gridIndex cols (ji.1 + 1) ji.2)).1
    (gridIndex cols ji.1 (ji.2 + 1)) (gridIndex cols (ji.1 + 1) (ji.2 + 1))
    (gridIndex cols (ji.1 + 1) ji.2)
  rw [addCellTriangles_eq, h2, h1, countP_append_singleton,
    countP_append_singleton]
  rw [countIf_eq_of_iff (regT1_iff (cols + 1) (gridIndex cols ji.1 ji.2)
    p q (by omega) _ rfl
    (by show gridIndex cols ji.1 (ji.2 + 1) = _; rw [gridIndex_right])
    (by show gridIndex cols (ji.1 + 1) ji.2 = _; rw [gridIndex_up]))]
  rw [countIf_eq_of_iff (regT2_iff (cols + 1) (gridIndex cols ji.1 ji.2)
    p q (by omega) _
    (by show gridIndex cols ji.1 (ji.2 + 1) = _; rw [gridIndex_right])
    (by show gridIndex cols (ji.1 + 1) (ji.2 + 1) = _; rw [gridIndex_diag])
    (by show gridIndex cols (ji.1 + 1) ji.2 = _; rw [gridIndex_up]))]
  unfold wCell
  omega

theorem fold_cells_countP (cols : ℕ) (p q : ℕ) (hcols : 1 ≤ cols)
    (L : List (ℕ × ℕ)) :
    ∀ m : PaperMesh,
      ((L.foldl (addCellTriangles cols) m).triangles).countP
          (fun t => triRegisters t (p, q)) =
        m.triangles.countP (fun t => triRegisters t (p, q)) +
          (L.map (fun ji => wCell (cols + 1) p q
            (gridIndex cols ji.1 ji.2))).sum := by
  induction L with
  | nil => intro m; simp
  | cons ji L ih =>
    intro m
    rw [List.foldl_cons, ih, addCellTriangles_countP cols m ji p q hcols,
      List.map_cons, List.sum_cons]
    omega

theorem wCell_support (C p q x : ℕ) (h : wCell C p q x ≠ 0) :
    x = p ∨ x + 1 = p ∨ x + C = p := by
  unfold wCell at h
  split_ifs at h <;> omega

theorem sum_map_le_support (w : ℕ → ℕ) :
    ∀ xs : List ℕ, xs.Nodup →
      ∀ s : List ℕ, (∀ x ∈ xs, w x ≠ 0 → x ∈ s) →
      (xs.map w).sum ≤ (s.map w).sum := by
  intro xs
  induction xs with
  | nil => intro _ s _; simp
  | cons x l ih =>
    intro hnd s hs
    obtain ⟨hx, hl⟩ := List.nodup_cons.1 hnd
    rw [List.map_cons, List.sum_cons]
    by_cases hw : w x = 0
    · rw [hw, Nat.zero_add]
      exact ih hl s (fun y hy hwy => hs y (List.mem_cons_of_mem _ hy) hwy)
    · have hxs : x ∈ s := hs x (List.mem_cons_self _ _) hw
      have hperm : List.Perm s (x :: s.erase x) := List.perm_cons_erase hxs
      have hsum : (s.map w).sum = w x + ((s.erase x).map w).sum := by
        rw [(hperm.map w).sum_eq, List.map_cons, List.sum_cons]
      rw [hsum]
      refine Nat.add_le_add_left (ih hl (s.erase x) ?_) _
      intro y hy hwy
      have hyne : y ≠ x := by
        intro he
        rw [he] at hy
        exact hx hy
      exact (List.mem_erase_of_ne hyne).2
        (hs y (List.mem_cons_of_mem _ hy) hwy)

set_option maxHeartbeats 1600000 in
theorem wCell_slots_sum_big (C p q : ℕ) (hC : 3 ≤ C) :
    (((p :: ((if 1 ≤ p then [p - 1] else []) ++
      (if C ≤ p then [p - C] else []))).map (wCell C p q)).sum) ≤ 2 := by
  by_cases h1 : 1 ≤ p
  · by_cases h2 : C ≤ p
    · rw [if_pos h1, if_pos h2]
      simp only [List.cons_append, List.nil_append, List.map_cons,
        List.map_nil, List.sum_cons, List.sum_nil]
      unfold wCell
      split_ifs <;> omega
    · rw [if_pos h1, if_neg h2]
      simp only [List.cons_append, List.nil_append, List.append_nil,
        List.map_cons, List.map_nil, List.sum_cons, List.sum_nil]
      unfold wCell
      split_ifs <;> omega
  · by_cases h2 : C ≤ p
    · rw [if_neg h1, if_pos h2]
      simp only [List.cons_append, List.nil_append, List.append_nil,
        List.map_cons, List.map_nil, List.sum_cons, List.sum_nil]
      unfold wCell
      split_ifs <;> omega
    · rw [if_neg h1, if_neg h2]
      simp only [List.cons_append, List.nil_append, List.append_nil,
        List.map_cons, List.map_nil, List.sum_cons, List.sum_nil]
      unfold wCell
      split_ifs <;> omega

set_option maxHeartbeats 1600000 in
theorem wCell2_slots_even (p q : ℕ) :
    ((p :: (if 2 ≤ p then [p - 2] else [])).map (wCell 2 p q)).sum ≤ 2 := by
  by_cases h2 : 2 ≤ p
  · rw [if_pos h2]
    simp only [List.map_cons, List.map_nil, List.sum_cons, List.sum_nil]
    unfold wCell
    split_ifs <;> omega
  · rw [if_neg h2]
    simp only [List.map_cons, List.map_nil, List.sum_cons, List.sum_nil]
    unfold wCell
    split_ifs <;> omega

set_option maxHeartbeats 1600000 in
theorem wCell2_slots_odd (p q : ℕ) :
    (((if 1 ≤ p then [p - 1] else []) : List ℕ).map (wCell 2 p q)).sum ≤ 2 := by
  by_cases h1 : 1 ≤ p
  · rw [if_pos h1]
    simp only [List.map_cons, List.map_nil, List.sum_cons, List.sum_nil]
    unfold wCell
    split_ifs <;> omega
  · rw [if_neg h1]
    simp

theorem grid_xs_eq (cols rows : ℕ) :
    (cellList cols rows).map (fun ji => gridIndex cols ji.1 ji.2) =
      (List.range rows).flatMap (fun j => (List.range cols).map
        (fun i => j * (cols + 1) + i)) := by
  unfold cellList
  simp only [List.map_flatMap, List.map_map]
  rfl

theorem nodup_grid_aux (cols : ℕ) : ∀ rows : ℕ,
    ((List.range rows).flatMap (fun j => (List.range cols).map
      (fun i => j * (cols + 1) + i))).Nodup ∧
    ∀ x ∈ (List.range rows).flatMap (fun j => (List.range cols).map
      (fun i => j * (cols + 1) + i)), x < rows * (cols + 1) := by
  intro rows
  induction rows with
  | zero => exact ⟨by simp, by simp⟩
  | succ r ih =>
    obtain ⟨ihn, ihb⟩ := ih
    rw [List.range_succ, List.flatMap_append]
    have hstep : (r + 1) * (cols + 1) = r * (cols + 1) + (cols + 1) := by ring
    constructor
    · apply List.Nodup.append ihn
      · simp only [List.flatMap_cons, List.flatMap_nil, List.append_nil]
        exact List.Nodup.map_on
          (fun x hx y hy hxy => Nat.add_left_cancel hxy) (List.nodup_range cols)
      · intro a ha hb
        have hba := ihb a ha
        simp only [List.flatMap_cons, List.flatMap_nil, List.append_nil] at hb
        rcases List.mem_map.1 hb with ⟨i, hi, hxe⟩
        have hi2 : i < cols := List.mem_range.1 hi
        omega
    · intro x hx
      rcases List.mem_append.1 hx with h | h
      · have := ihb x h
        omega
      · simp only [List.flatMap_cons, List.flatMap_nil, List.append_nil] at h
        rcases List.mem_map.1 h with ⟨i, hi, hxe⟩
        have hi2 : i < cols := List.mem_range.1 hi
        omega

theorem mem_cellList (cols rows : ℕ) (ji : ℕ × ℕ)
    (h : ji ∈ cellList cols rows) : ji.1 < rows ∧ ji.2 < cols := by
  unfold cellList at h
  rcases List.mem_flatMap.1 h with ⟨j, hj, hmem⟩
  rcases List.mem_map.1 hmem with ⟨i, hi, heq⟩
  rw [← heq]
  exact ⟨List.mem_range.1 hj, List.mem_range.1 hi⟩

theorem cellList_length (cols rows : ℕ) :
    (cellList cols rows).length = rows * cols := by
  unfold cellList
  induction rows with
  | zero => simp
  | succ r ih =>
    rw [List.range_succ, List.flatMap_append, List.length_append, ih]
    simp only [List.flatMap_cons, List.flatMap_nil, List.append_nil,
      List.length_map, List.length_range]
    ring

theorem grid_countP_le_two (cols rows p q : ℕ) (hcols : 1 ≤ cols) :
    ((cellList cols rows).map (fun ji => wCell (cols + 1) p q
      (gridIndex cols ji.1 ji.2))).sum ≤ 2 := by
  have hmm : (cellList cols rows).map (fun ji => wCell (cols + 1) p q
      (gridIndex cols ji.1 ji.2)) =
      ((cellList cols rows).map (fun ji => gridIndex cols ji.1 ji.2)).map
        (wCell (cols + 1) p q) := by
    rw [List.map_map]
    rfl
  rw [hmm, grid_xs_eq]
  have hnd := (nodup_grid_aux cols rows).1
  rcases Nat.lt_or_ge cols 2 with hc2 | hc3
  · have hc1 : cols = 1 := by omega
    subst hc1
    have hev : ∀ x ∈ (List.range rows).flatMap (fun j =>
        (List.range 1).map (fun i => j * (1 + 1) + i)), x % 2 = 0 := by
      intro x hx
      rcases List.mem_flatMap.1 hx with ⟨j, hj, hmem⟩
      rcases List.mem_map.1 hmem with ⟨i, hi, hxe⟩
      have hi2 : i < 1 := List.mem_range.1 hi
      omega
    by_cases hp : p % 2 = 0
    · refine le_trans (sum_map_le_support (wCell (1 + 1) p q) _ hnd
        (p :: (if 2 ≤ p then [p - 2] else [])) ?_) ?_
      · intro x hx hw
        have hx2 := hev x hx
        rcases wCell_support _ _ _ _ hw with h | h | h
        · rw [h]; exact List.mem_cons_self _ _
        · exact absurd h (by omega)
        · have h2p : 2 ≤ p := by omega
          apply List.mem_cons_of_mem
          rw [if_pos h2p]
          have hxx : x = p - 2 := by omega
          rw [hxx]
          exact List.mem_singleton.2 rfl
      · exact wCell2_slots_even p q
    · refine le_trans (sum_map_le_support (wCell (1 + 1) p q) _ hnd
        (if 1 ≤ p then [p - 1] else []) ?_) ?_
      · intro x hx hw
        have hx2 := hev x hx
        rcases wCell_support _ _ _ _ hw with h | h | h
        · exact absurd h (by omega)
        · have h1p : 1 ≤ p := by omega
          rw [if_pos h1p]
          have hxx : x = p - 1 := by omega
          rw [hxx]
          exact List.mem_singleton.2 rfl
        · exact absurd h (by omega)
      · exact wCell2_slots_odd p q
  · refine le_trans (sum_map_le_support (wCell (cols + 1) p q) _ hnd
      (p :: ((if 1 ≤ p then [p - 1] else []) ++
        (if cols + 1 ≤ p then [p - (cols + 1)] else []))) ?_)
      (wCell_slots_sum_big (cols + 1) p q (by omega))
    intro x hx hw
    rcases wCell_support _ _ _ _ hw with h | h | h
    · rw [h]; exact List.mem_cons_self _ _
    · have h1p : 1 ≤ p := by omega
      apply List.mem_cons_of_mem
      apply List.mem_append_left
      rw [if_pos h1p]
      have hxx : x = p - 1 := by omega
      rw [hxx]
      exact List.mem_singleton.2 rfl
    · have hCp : cols + 1 ≤ p := by omega
      apply List.mem_cons_of_mem
      apply List.mem_append_right
      rw [if_pos hCp]
      have hxx : x = p - (cols + 1) := by omega
      rw [hxx]
      exact List.mem_singleton.2 rfl

theorem markVertexBoundary_idsMap (vs : List PaperVertex) (i : ℕ) :
    (markVertexBoundary vs i).map PaperVertex.id = vs.map PaperVertex.id := by
  unfold markVertexBoundary
  rw [List.map_map]
  apply List.map_congr_left
  intro v _
  show (if (v.id == i) = true then { v with isBoundary := true } else v).id
    = v.id
  split
  · rfl
  · rfl

theorem markBoundaryVertices_idsMap (es : List PaperEdge) :
    ∀ vs : List PaperVertex,
      (markBoundaryVertices vs es).map PaperVertex.id =
        vs.map PaperVertex.id := by
  induction es with
  | nil => intro vs; rfl
  | cons e es ih =>
    intro vs
    have h1 : markBoundaryVertices vs (e :: es) =
        markBoundaryVertices
          (if e.isBoundary then
            markVertexBoundary (markVertexBoundary vs e.ev0) e.ev1
          else vs) es := rfl
    rw [h1, ih]
    split
    · rw [markVertexBoundary_idsMap, markVertexBoundary_idsMap]
    · rfl

theorem rebuildEdges_vertexIds (m : PaperMesh) :
    (rebuildEdges m).vertices.map PaperVertex.id =
      m.vertices.map PaperVertex.id := by
  show (markBoundaryVertices m.vertices _).map PaperVertex.id = _
  rw [markBoundaryVertices_idsMap]

theorem findVertex_isSome_of_mem (m : PaperMesh) (i : ℕ)
    (h : i ∈ m.vertices.map PaperVertex.id) :
    (findVertex m i).isSome = true := by
  rcases List.mem_map.1 h with ⟨v, hv, hvi⟩
  unfold findVertex
  rw [List.find?_isSome]
  exact ⟨v, hv, by simp [hvi]⟩

theorem gridIndex_mem_initial (cfg : PaperConfig) (cols rows j i : ℕ)
    (hj : j < rows + 1) (hi : i < cols + 1) :
    gridIndex cols j i ∈
      (initialVertices cfg cols rows).map PaperVertex.id := by
  unfold initialVertices
  rw [List.map_flatMap]
  apply List.mem_flatMap.2
  refine ⟨j, List.mem_range.2 hj, ?_⟩
  rw [List.map_map]
  exact List.mem_map.2 ⟨i, List.mem_range.2 hi, rfl⟩

theorem edges_length_bound (m : PaperMesh)
    (hD : DistinctL m.triangles) (hN : TriIdsNodup m)
    (hcnt : ∀ p q : ℕ, m.triangles.countP
      (fun t => triRegisters t (p, q)) ≤ 2) :
    ∀ e ∈ (rebuildEdges m).edges,
      e.triangles.length = 1 ∨ e.triangles.length = 2 := by
  intro e he
  have hne := rebuildEdges_edge_nonempty m e he
  have hder := (rebuildEdges_EdgesSpec m hD hN).1 e he
  have hlen : e.triangles.length =
      m.triangles.countP (fun t => triRegisters t (e.ev0, e.ev1)) := by
    rw [hder, RegFilterIds_of_core (rebuildEdges_triCore m)]
    unfold RegFilterIds
    rw [List.length_map, ← List.countP_eq_length_filter]
  have h2 := hcnt e.ev0 e.ev1
  have h0 : e.triangles.length ≠ 0 := fun hz =>
    hne (List.eq_nil_of_length_eq_zero hz)
  omega

theorem gridFold_distinct (cfg : PaperConfig) (cols rows : ℕ)
    (hcols : 1 ≤ cols) : DistinctL (gridFold cfg cols rows).triangles := by
  intro t ht
  rcases fold_cells_mem cols (cellList cols rows) (gridBase cfg cols rows)
    t ht with h | ⟨ji, hji, hc⟩
  · exact absurd h (List.not_mem_nil t)
  · have g1 := gridIndex_right cols ji.1 ji.2
    have g2 := gridIndex_up cols ji.1 ji.2
    have g3 := gridIndex_diag cols ji.1 ji.2
    rcases hc with ⟨h0, h1, h2⟩ | ⟨h0, h1, h2⟩
    · rw [h0, h1, h2, g1, g2]
      omega
    · rw [h0, h1, h2, g1, g2, g3]
      omega

theorem gridFold_nodup (cfg : PaperConfig) (cols rows : ℕ) :
    TriIdsNodup (gridFold cfg cols rows) :=
  (fold_cells_nodup cols (cellList cols rows) (gridBase cfg cols rows)
    (fun t ht => absurd ht (List.not_mem_nil t)) (by simp [gridBase])).2

theorem gridFold_countP (cfg : PaperConfig) (cols rows p q : ℕ)
    (hcols : 1 ≤ cols) :
    (gridFold cfg cols rows).triangles.countP
      (fun t => triRegisters t (p, q)) ≤ 2 := by
  unfold gridFold
  rw [fold_cells_countP cols p q hcols (cellList cols rows)
    (gridBase cfg cols rows)]
  have hbase : (gridBase cfg cols rows).triangles.countP
      (fun t => triRegisters t (p, q)) = 0 := rfl
  rw [hbase, Nat.zero_add]
  exact grid_countP_le_two cols rows p q hcols

theorem gridFold_length (cfg : PaperConfig) (cols rows : ℕ) :
    (gridFold cfg cols rows).triangles.length = 2 * (rows * cols) := by
  unfold gridFold
  rw [fold_cells_length, cellList_length]
  have hbase : (gridBase cfg cols rows).triangles.length = 0 := rfl
  omega

theorem gridFold_mem_verts (cfg : PaperConfig) (cols rows : ℕ) :
    ∀ t ∈ (gridFold cfg cols rows).triangles,
      t.v0 ∈ (initialVertices cfg cols rows).map PaperVertex.id ∧
      t.v1 ∈ (initialVertices cfg cols rows).map PaperVertex.id ∧
      t.v2 ∈ (initialVertices cfg cols rows).map PaperVertex.id := by
  intro t ht
  rcases fold_cells_mem cols (cellList cols rows) (gridBase cfg cols rows)
    t ht with h | ⟨ji, hji, hc⟩
  · exact absurd h (List.not_mem_nil t)
  · obtain ⟨hj, hi⟩ := mem_cellList cols rows ji hji
    rcases hc with ⟨h0, h1, h2⟩ | ⟨h0, h1, h2⟩
    · refine ⟨?_, ?_, ?_⟩
      · rw [h0]
        exact gridIndex_mem_initial cfg cols rows ji.1 ji.2
          (by omega) (by omega)
      · rw [h1]
        exact gridIndex_mem_initial cfg cols rows ji.1 (ji.2 + 1)
          (by omega) (by omega)
      · rw [h2]
        exact gridIndex_mem_initial cfg cols rows (ji.1 + 1) ji.2
          (by omega) (by omega)
    · refine ⟨?_, ?_, ?_⟩
      · rw [h0]
        exact gridIndex_mem_initial cfg cols rows ji.1 (ji.2 + 1)
          (by omega) (by omega)
      · rw [h1]
        exact gridIndex_mem_initial cfg cols rows (ji.1 + 1) (ji.2 + 1)
          (by omega) (by omega)
      · rw [h2]
        exact gridIndex_mem_initial cfg cols rows (ji.1 + 1) ji.2
          (by omega) (by omega)

/-! ## C1: the construction invariant -/

/-- C1: for every valid configuration (positive width and height, at least
one subdivision), the constructed mesh has exactly
`2 * cols * rows` triangles (`cols = subdivisions`,
`rows = ceil(subdivisions * height / width)`), every triangle references
three pairwise-distinct vertex ids that all exist in the vertex map, and
every edge of the rebuilt edge map has exactly 1 or 2 adjacent triangles,
never 0 and never more than 2. -/
theorem C1_construction_invariant (cfg : PaperConfig)
    (_hw : 0 < cfg.width) (_hh : 0 < cfg.height)
    (hs : 1 ≤ cfg.subdivisions) :
    triangleCount (buildInitialMesh cfg) = 2 * gridCols cfg * gridRows cfg ∧
    (∀ t ∈ (buildInitialMesh cfg).triangles,
      (t.v0 ≠ t.v1 ∧ t.v1 ≠ t.v2 ∧ t.v0 ≠ t.v2) ∧
      ((findVertex (buildInitialMesh cfg) t.v0).isSome = true ∧
       (findVertex (buildInitialMesh cfg) t.v1).isSome = true ∧
       (findVertex (buildInitialMesh cfg) t.v2).isSome = true)) ∧
    (∀ e ∈ (buildInitialMesh cfg).edges,
      e.triangles.length = 1 ∨ e.triangles.length = 2) := by
  have hcols : 1 ≤ gridCols cfg := hs
  have heq : buildInitialMesh cfg =
      rebuildEdges (gridFold cfg (gridCols cfg) (gridRows cfg)) := rfl
  rw [heq]
  have hvids : (rebuildEdges (gridFold cfg (gridCols cfg)
      (gridRows cfg))).vertices.map PaperVertex.id =
      (initialVertices cfg (gridCols cfg) (gridRows cfg)).map
        PaperVertex.id := by
    rw [rebuildEdges_vertexIds]
    rw [show (gridFold cfg (gridCols cfg) (gridRows cfg)).vertices =
      initialVertices cfg (gridCols cfg) (gridRows cfg) from by
        unfold gridFold
        rw [foldl_addCellTriangles_vertices]
        rfl]
  refine ⟨?_, ?_, ?_⟩
  · rw [rebuildEdges_triangleCount]
    show (gridFold cfg (gridCols cfg) (gridRows cfg)).triangles.length = _
    rw [gridFold_length]
    ring
  · intro t ht
    have hcore := rebuildEdges_triCore (gridFold cfg (gridCols cfg)
      (gridRows cfg))
    have hmemc : triCore t ∈ (gridFold cfg (gridCols cfg)
        (gridRows cfg)).triangles.map triCore := by
      rw [← hcore]
      exact List.mem_map_of_mem _ ht
    rcases List.mem_map.1 hmemc with ⟨u, hu, hcu⟩
    obtain ⟨hid, h0, h1, h2⟩ := triCore_fields hcu
    constructor
    · have hd := gridFold_distinct cfg (gridCols cfg) (gridRows cfg) hcols u hu
      rw [← h0, ← h1, ← h2]
      exact hd
    · obtain ⟨m0, m1, m2⟩ := gridFold_mem_verts cfg (gridCols cfg)
        (gridRows cfg) u hu
      refine ⟨?_, ?_, ?_⟩
      · apply findVertex_isSome_of_mem
        rw [hvids, ← h0]
        exact m0
      · apply findVertex_isSome_of_mem
        rw [hvids, ← h1]
        exact m1
      · apply findVertex_isSome_of_mem
        rw [hvids, ← h2]
        exact m2
  · exact edges_length_bound (gridFold cfg (gridCols cfg) (gridRows cfg))
      (gridFold_distinct cfg _ _ hcols) (gridFold_nodup cfg _ _)
      (fun p q => gridFold_countP cfg _ _ p q hcols)

set_option maxRecDepth 200000 in
/-- Witness for C1: the 2×2-subdivision unit-square configuration is
valid and gives `2 * 2 * 2 = 8` triangles. -/
theorem C1_construction_invariant_witness :
    (0 < cfgC1.width ∧ 0 < cfgC1.height ∧ 1 ≤ cfgC1.subdivisions) ∧
    triangleCount (buildInitialMesh cfgC1) =
      2 * gridCols cfgC1 * gridRows cfgC1 :=
  ⟨by with_unfolding_all decide,
    (C1_construction_invariant cfgC1 (by with_unfolding_all decide)
      (by with_unfolding_all decide) (by with_unfolding_all decide)).1⟩

end Paper
